import Mathlib

/-!
Verification of the scheduling / session-resolution core of the
astrbot_plugin_sy reminder plugin (src/utils.py, src/command_utils.py,
src/commands.py, src/tools.py), as a shallow embedding in Lean 4.

Conventions of the embedding:
* Python `datetime.datetime` values produced by the parsers carry minute
  precision; they are modelled by `DateTime` (a calendar `Date` plus hour and
  minute).  The wall clock `datetime.datetime.now()` additionally carries
  seconds and microseconds; it is modelled by `NowTime`: its minute
  truncation plus the sub-minute remainder (`sub` = seconds and microseconds,
  0 iff now is exactly on a minute boundary).
* Python strings are Lean `String`s.  The handful of `str` operations the
  source uses (`split`, `rsplit`, `startswith`, substring test, `strip`,
  `lower`, single-character `replace`) are re-implemented structurally on
  `List Char` so every definition is executable by the kernel.
* Python dicts that the source iterates in insertion order
  (`reminder_data`) are association lists `List (String × List Reminder)`;
  all operations use first-occurrence semantics, matching a dict whose keys
  are unique.
* Fallible code (a `ValueError` raised and surfaced to the caller) returns
  `Option` / `Except`.
-/

set_option linter.unusedVariables false

/-! ## Calendar arithmetic (model of Python `datetime.date` / `timedelta(days=1)`) -/

/-- Gregorian leap-year rule, as `datetime` implements it. -/
def isLeapYear (y : Nat) : Bool :=
  y % 4 == 0 && (y % 100 != 0 || y % 400 == 0)

/-- Length of month `m` (1..12) of year `y`. -/
def daysInMonth (y m : Nat) : Nat :=
  if m = 2 then (if isLeapYear y then 29 else 28)
  else if m = 4 ∨ m = 6 ∨ m = 9 ∨ m = 11 then 30
  else 31

structure Date where
  year : Nat
  month : Nat
  day : Nat
  deriving DecidableEq, Repr

/-- A timestamp at minute precision, the canonical value the time parsers
produce (`%Y-%m-%d %H:%M`). -/
structure DateTime where
  date : Date
  hour : Nat
  minute : Nat
  deriving DecidableEq, Repr

/-- `datetime.datetime.now()`: its minute truncation (`now.replace(second=0,
microsecond=0)`) plus the sub-minute remainder. -/
structure NowTime where
  trunc : DateTime
  sub : Nat
  deriving DecidableEq, Repr

def Date.valid (d : Date) : Prop :=
  1 ≤ d.year ∧ 1 ≤ d.month ∧ d.month ≤ 12 ∧ 1 ≤ d.day ∧ d.day ≤ daysInMonth d.year d.month

instance (d : Date) : Decidable d.valid := by
  unfold Date.valid; infer_instance

def DateTime.validT (t : DateTime) : Prop :=
  t.date.valid ∧ t.hour ≤ 23 ∧ t.minute ≤ 59

instance (t : DateTime) : Decidable t.validT := by
  unfold DateTime.validT; infer_instance

/-- Strict order on dates (lexicographic on year, month, day), as Python
compares `date` values. -/
def Date.lt (a b : Date) : Bool :=
  a.year < b.year
    || (a.year == b.year
        && (a.month < b.month || (a.month == b.month && a.day < b.day)))

/-- Strict order on minute-precision timestamps, as Python compares
`datetime` values whose seconds are zero. -/
def DateTime.lt (a b : DateTime) : Bool :=
  Date.lt a.date b.date
    || (a.date == b.date
        && (a.hour < b.hour || (a.hour == b.hour && a.minute < b.minute)))

/-- `dt < now` for a second-free `dt` against the full-precision clock:
either `dt` is before the minute truncation of now, or it equals it and now
has a nonzero sub-minute part. -/
def pyLtFull (a : DateTime) (n : NowTime) : Bool :=
  DateTime.lt a n.trunc || (a == n.trunc && n.sub != 0)

/-- `dt + timedelta(days=1)` on the date part: the following calendar day. -/
def Date.next (d : Date) : Date :=
  if d.day < daysInMonth d.year d.month then ⟨d.year, d.month, d.day + 1⟩
  else if d.month < 12 then ⟨d.year, d.month + 1, 1⟩
  else ⟨d.year + 1, 1, 1⟩

/-- Days of year `y` that precede month `m` (months 1..m-1). -/
def daysBeforeMonth (y m : Nat) : Nat :=
  (((List.range (m - 1)).map (fun i => daysInMonth y (i + 1))).foldl (· + ·) 0)

/-- Proleptic-Gregorian day number of a date; `Date.ordinal ⟨1,1,1⟩ = 1`,
matching Python `date.toordinal`. -/
def Date.ordinal (d : Date) : Nat :=
  365 * (d.year - 1) + (d.year - 1) / 4 + (d.year - 1) / 400 - (d.year - 1) / 100
    + daysBeforeMonth d.year d.month + d.day

/-- Python `date.weekday()`: 0 = Monday .. 6 = Sunday. -/
def Date.weekday (d : Date) : Nat :=
  (d.ordinal - 1) % 7

theorem daysBeforeMonth_succ (y m : Nat) (hm : 1 ≤ m) :
    daysBeforeMonth y (m + 1) = daysBeforeMonth y m + daysInMonth y m := by
  unfold daysBeforeMonth
  have h1 : m + 1 - 1 = (m - 1) + 1 := by omega
  rw [h1, List.range_succ, List.map_append, List.foldl_append]
  have h2 : m - 1 + 1 = m := by omega
  simp [h2]

theorem daysBeforeMonth_12 (y : Nat) :
    daysBeforeMonth y 12 = 334 + (if isLeapYear y then 1 else 0) := by
  by_cases h : isLeapYear y <;>
    simp [daysBeforeMonth, List.range_succ, daysInMonth, h]

set_option maxHeartbeats 2000000 in
/-- The successor function `Date.next` advances the day number by exactly
one on every valid date: it is the following calendar day. -/
theorem Date.ordinal_next (d : Date) (hv : d.valid) :
    d.next.ordinal = d.ordinal + 1 := by
  obtain ⟨hy, hm1, hm12, hd1, hd2⟩ := hv
  unfold Date.next
  by_cases hday : d.day < daysInMonth d.year d.month
  · simp only [if_pos hday, Date.ordinal]
    omega
  · have hde : d.day = daysInMonth d.year d.month := by omega
    simp only [if_neg hday]
    by_cases hmon : d.month < 12
    · simp only [if_pos hmon, Date.ordinal]
      have := daysBeforeMonth_succ d.year d.month hm1
      omega
    · have hm : d.month = 12 := by omega
      have hd31 : daysInMonth d.year 12 = 31 := by simp [daysInMonth]
      rw [hm] at hde
      rw [hd31] at hde
      simp only [if_neg hmon]
      have h0 : daysBeforeMonth (d.year + 1) 1 = 0 := rfl
      have h12 := daysBeforeMonth_12 d.year
      have hleap : isLeapYear d.year = true ↔
          (d.year % 4 = 0 ∧ (d.year % 100 ≠ 0 ∨ d.year % 400 = 0)) := by
        simp [isLeapYear]
      simp only [Date.ordinal, hm, hde, h0, h12]
      by_cases hL : isLeapYear d.year = true
      · rw [if_pos hL]
        have := hleap.mp hL
        omega
      · rw [if_neg hL]
        have : ¬(d.year % 4 = 0 ∧ (d.year % 100 ≠ 0 ∨ d.year % 400 = 0)) :=
          fun hc => hL (hleap.mpr hc)
        omega

/-! ## String utilities (models of the Python `str` operations the source uses) -/

/-- Whitespace for Python `str.strip()` / `str.split()` purposes. -/
def isPySpace (c : Char) : Bool :=
  c == ' ' || c == '\t' || c == '\n' || c == '\r'

/-- Split a character list at every occurrence of `ch` (Python
`s.split(ch)`): always returns at least one (possibly empty) piece. -/
def splitOnChar (ch : Char) : List Char → List (List Char)
  | [] => [[]]
  | x :: xs =>
    let r := splitOnChar ch xs
    if x = ch then [] :: r
    else
      match r with
      | h :: t => (x :: h) :: t
      | [] => [[x]]

theorem splitOnChar_ne_nil (ch : Char) (l : List Char) : splitOnChar ch l ≠ [] := by
  cases l with
  | nil => simp [splitOnChar]
  | cons x xs =>
    simp only [splitOnChar]
    by_cases h : x = ch
    · simp [h]
    · simp only [if_neg h]
      cases splitOnChar ch xs <;> simp

/-- No piece produced by `splitOnChar` contains the separator. -/
theorem splitOnChar_not_mem (ch : Char) (l : List Char) :
    ∀ piece ∈ splitOnChar ch l, ∀ c ∈ piece, c ≠ ch := by
  induction l with
  | nil => intro piece hp c hc; simp [splitOnChar] at hp; simp [hp] at hc
  | cons x xs ih =>
    intro piece hp c hc
    simp only [splitOnChar] at hp
    by_cases h : x = ch
    · simp only [if_pos h, List.mem_cons] at hp
      rcases hp with h1 | h1
      · simp [h1] at hc
      · exact ih piece h1 c hc
    · simp only [if_neg h] at hp
      rcases hr : splitOnChar ch xs with _ | ⟨hd, tl⟩
      · exact absurd hr (splitOnChar_ne_nil ch xs)
      · rw [hr] at hp
        simp only [List.mem_cons] at hp
        rcases hp with h1 | h1
        · subst h1
          rcases List.mem_cons.mp hc with h2 | h2
          · simpa [h2] using h
          · exact ih hd (by rw [hr]; exact List.mem_cons_self hd tl) c h2
        · exact ih piece (by rw [hr]; exact List.mem_cons_of_mem hd h1) c hc

/-- Splitting a list whose prefix is separator-free at its first separator. -/
theorem splitOnChar_append (ch : Char) (l1 l2 : List Char)
    (h : ∀ c ∈ l1, c ≠ ch) :
    splitOnChar ch (l1 ++ ch :: l2) = l1 :: splitOnChar ch l2 := by
  induction l1 with
  | nil => simp [splitOnChar]
  | cons a l1' ih =>
    have ha : a ≠ ch := h a (List.mem_cons_self a l1')
    have hrest : ∀ c ∈ l1', c ≠ ch := fun c hc => h c (List.mem_cons_of_mem a hc)
    show splitOnChar ch (a :: (l1' ++ ch :: l2)) = (a :: l1') :: splitOnChar ch l2
    simp only [splitOnChar, if_neg ha]
    rw [ih hrest]

/-- A separator-free nonempty list splits into the single piece itself. -/
theorem splitOnChar_single (ch : Char) (l : List Char) (h : ∀ c ∈ l, c ≠ ch) :
    splitOnChar ch l = [l] := by
  induction l with
  | nil => simp [splitOnChar]
  | cons a l' ih =>
    have ha : a ≠ ch := h a (List.mem_cons_self a l')
    have hrest : ∀ c ∈ l', c ≠ ch := fun c hc => h c (List.mem_cons_of_mem a hc)
    simp [splitOnChar, if_neg ha, ih hrest]

/-- Substring test (Python `needle in haystack`). -/
def hasSubList (pat : List Char) : List Char → Bool
  | [] => pat.isEmpty
  | c :: rest => pat.isPrefixOf (c :: rest) || hasSubList pat rest

/-- `pat in s` for strings. -/
def strHasSub (s pat : String) : Bool :=
  hasSubList pat.data s.data

theorem hasSubList_append_right (pat l1 l2 : List Char)
    (h : hasSubList pat l2 = true) : hasSubList pat (l1 ++ l2) = true := by
  induction l1 with
  | nil => simpa
  | cons c rest ih => simp [hasSubList, ih]

theorem mem_of_hasSubList_singleton (c : Char) (l : List Char)
    (h : hasSubList [c] l = true) : c ∈ l := by
  induction l with
  | nil => simp [hasSubList, List.isEmpty] at h
  | cons x xs ih =>
    simp only [hasSubList, Bool.or_eq_true] at h
    rcases h with h | h
    · have hx : c = x := by
        cases xs <;> simpa [List.isPrefixOf] using h
      rw [hx]
      exact List.mem_cons_self x xs
    · exact List.mem_cons_of_mem x (ih h)

theorem hasSubList_singleton_of_mem (c : Char) (l : List Char)
    (h : c ∈ l) : hasSubList [c] l = true := by
  induction l with
  | nil => simp at h
  | cons x xs ih =>
    rcases List.mem_cons.mp h with h1 | h1
    · subst h1
      cases xs <;> simp [hasSubList, List.isPrefixOf]
    · simp [hasSubList, ih h1]

/-- Split at the LAST occurrence of a colon (Python `s.rsplit(":", 1)` when a
colon is present): `some (before, after)`, or `none` when no colon occurs. -/
def rsplitColonList : List Char → Option (List Char × List Char)
  | [] => none
  | c :: rest =>
    match rsplitColonList rest with
    | some (a, b) => some (c :: a, b)
    | none => if c = ':' then some ([], rest) else none

theorem rsplitColonList_join (l a b : List Char)
    (h : rsplitColonList l = some (a, b)) : a ++ ':' :: b = l := by
  induction l generalizing a b with
  | nil => simp [rsplitColonList] at h
  | cons c rest ih =>
    simp only [rsplitColonList] at h
    rcases hr : rsplitColonList rest with _ | ⟨a', b'⟩
    · rw [hr] at h
      by_cases hc : c = ':'
      · simp only [if_pos hc] at h
        obtain ⟨ha, hb⟩ := Prod.mk.injEq .. ▸ (Option.some.injEq .. ▸ h)
        simp [← ha, ← hb, hc]
      · simp [if_neg hc] at h
    · rw [hr] at h
      obtain ⟨ha, hb⟩ := Prod.mk.injEq .. ▸ (Option.some.injEq .. ▸ h)
      have := ih a' b' hr
      simp [← ha, ← hb, this]

theorem rsplitColonList_isSome (l : List Char) (h : ':' ∈ l) :
    ∃ a b, rsplitColonList l = some (a, b) := by
  induction l with
  | nil => simp at h
  | cons c rest ih =>
    simp only [rsplitColonList]
    rcases hr : rsplitColonList rest with _ | ⟨a', b'⟩
    · rcases List.mem_cons.mp h with h1 | h1
      · exact ⟨[], rest, by simp [← h1]⟩
      · obtain ⟨a, b, hab⟩ := ih h1
        rw [hab] at hr; cases hr
    · exact ⟨c :: a', b', rfl⟩

/-- Python `str.strip()`. -/
def pyStrip (s : String) : String :=
  String.mk (((s.data.dropWhile isPySpace).reverse.dropWhile isPySpace).reverse)

/-- ASCII lowercase (Python `str.lower()` on the ASCII tokens the validator
compares). -/
def lowerChar (c : Char) : Char :=
  if 65 ≤ c.toNat ∧ c.toNat ≤ 90 then Char.ofNat (c.toNat + 32) else c

def asciiLower (s : String) : String :=
  String.mk (s.data.map lowerChar)

/-- Split a character list at every character satisfying `p`, keeping empty
pieces. -/
def splitOnPred (p : Char → Bool) : List Char → List (List Char)
  | [] => [[]]
  | x :: xs =>
    let r := splitOnPred p xs
    if p x then [] :: r
    else
      match r with
      | h :: t => (x :: h) :: t
      | [] => [[x]]

theorem splitOnPred_ne_nil (p : Char → Bool) (l : List Char) :
    splitOnPred p l ≠ [] := by
  cases l with
  | nil => simp [splitOnPred]
  | cons x xs =>
    simp only [splitOnPred]
    by_cases h : p x
    · simp [h]
    · simp only [if_neg h]
      cases splitOnPred p xs <;> simp

/-- A nonempty list free of separators splits into the single piece itself. -/
theorem splitOnPred_single (p : Char → Bool) (l : List Char)
    (h : ∀ c ∈ l, p c = false) : splitOnPred p l = [l] := by
  induction l with
  | nil => simp [splitOnPred]
  | cons a l' ih =>
    have ha : p a = false := h a (List.mem_cons_self a l')
    have hrest : ∀ c ∈ l', p c = false := fun c hc => h c (List.mem_cons_of_mem a hc)
    simp [splitOnPred, ha, ih hrest]

/-- Python `str.split()` with no argument: split on whitespace runs,
dropping empty pieces. -/
def pySplitWs (s : String) : List String :=
  (((splitOnPred isPySpace s.data).map String.mk).filter (fun piece => piece ≠ ""))

/-! ## Raw origins and platform types (src/utils.py lines 537-734)

`unified_msg_origin` strings have the shape `platform:kind:id`.  The live
platform registry (`context.get_platform_inst`, an astrbot framework
service external to this repository) is unavailable in the embedding, so
`get_platform_type_from_system` takes its documented fallback path: the
string analysis of `get_platform_type_from_origin` applied to
`platform_id:dummy:dummy`, exactly as `utils.get_platform_type_from_system`
does when no context can be found. -/

/-- The static table of v3-era platform names (src/utils.py lines 557-561,
604-608, 722-726, 869-873 repeat the same list). -/
def v3PlatformNames : List String :=
  ["aiocqhttp", "qq_official", "discord", "slack", "telegram",
   "wechatmp", "wechatferry", "wecom", "weixin_official_account",
   "satori", "webchat"]

/-- Python `s.split(":", 2)`: at most three pieces, the third keeping any
further colons. -/
def splitColonMax2 (s : String) : List String :=
  match (splitOnChar ':' s.data).map String.mk with
  | p1 :: p2 :: p3 :: rest => [p1, p2, joinColon (p3 :: rest)]
  | l => l
where
  joinColon : List String → String
    | [] => ""
    | [x] => x
    | x :: y :: xs => x ++ ":" ++ joinColon (y :: xs)

/-- Python `s.split(":", 1)[0]`: the text before the first colon. -/
def firstColonPart (s : String) : String :=
  String.mk ((splitOnChar ':' s.data).headD [])

/-- `utils.get_platform_type_from_origin` (lines 576-619) with no context:
extract the platform type from an origin string by the static table. -/
def get_platform_type_from_origin (origin : String) : String :=
  if origin = "" ∨ strHasSub origin ":" = false then "unknown"
  else
    let platformPart := firstColonPart origin
    if v3PlatformNames.contains platformPart then platformPart
    else
      match v3PlatformNames.find? (fun name => name.data.isPrefixOf platformPart.data) with
      | some name => name
      | none => platformPart

/-- `utils.get_platform_type_from_system` (lines 637-668) when neither the
caller's context nor the global `star_map` yields a platform instance (the
registry is external to this repository): fall back to the string analysis
on `platform_id:dummy:dummy`. -/
def get_platform_type_from_system (platformId : String) : String :=
  get_platform_type_from_origin (platformId ++ ":dummy:dummy")

/-- The platform-type resolution both compatibility checks perform for one
side: system lookup first, and when that falls through (returns the id
itself) the string analysis of the full origin (src/utils.py lines 854-862).
-/
def resolvedPlatformType (platformId origin : String) : String :=
  let ts := get_platform_type_from_system platformId
  if ts = platformId then get_platform_type_from_origin origin else ts

/-- The pure content of `get_platform_type_from_origin` on the platform
component alone. -/
def platformTypeOfId (p : String) : String :=
  if v3PlatformNames.contains p then p
  else
    match v3PlatformNames.find? (fun name => name.data.isPrefixOf p.data) with
    | some name => name
    | none => p

/-- `CompatibilityHandler.is_compatible_origin` (src/utils.py lines
831-880): do two raw origins denote the same real conversation? -/
def is_compatible_origin (origin1 origin2 : String) : Bool :=
  if origin1 = origin2 then true
  else
    let parts1 := if origin1 ≠ "" ∧ strHasSub origin1 ":" = true then splitColonMax2 origin1 else []
    let parts2 := if origin2 ≠ "" ∧ strHasSub origin2 ":" = true then splitColonMax2 origin2 else []
    match parts1, parts2 with
    | [p1, k1, s1], [p2, k2, s2] =>
      if k1 ≠ k2 ∨ s1 ≠ s2 then false
      else if p1 = p2 then true
      else
        let t1 := resolvedPlatformType p1 origin1
        let t2 := resolvedPlatformType p2 origin2
        if t1 ≠ t2 then false
        else if v3PlatformNames.contains p1 && v3PlatformNames.contains p2 then p1 == p2
        else true
    | _, _ => false

/-! ## The reminder repository (a Python dict in insertion order) -/

/-- One stored reminder/task record.  `datetime` is the parsed
`%Y-%m-%d %H:%M` value of the record's "datetime" field (`none` models a
missing or empty field); `repeatKind` models `r.get("repeat", "none")`,
`jobId` models `r.get("job_id")`. -/
structure Reminder where
  text : String
  datetime : Option DateTime
  repeatKind : Option String
  jobId : Option String
  isTask : Bool
  deriving DecidableEq, Repr

/-- The repository `reminder_data`: partition key to item list, in
insertion order. -/
abbrev ReminderData := List (String × List Reminder)

def containsKey (data : ReminderData) (k : String) : Bool :=
  data.any (fun p => p.1 == k)

def keysOf (data : ReminderData) : List String :=
  data.map (fun p => p.1)

/-- `reminder_data.get(k, [])`. -/
def lookupList (data : ReminderData) (k : String) : List Reminder :=
  match data.find? (fun p => p.1 == k) with
  | some p => p.2
  | none => []

/-- `reminder_data[k] = v` for an existing key (first occurrence). -/
def setKey : ReminderData → String → List Reminder → ReminderData
  | [], _, _ => []
  | (k', v') :: rest, k, v =>
    if k' = k then (k', v) :: rest else (k', v') :: setKey rest k v

/-- `utils.find_compatible_reminder_key` (lines 735-763) with the
compatibility handler's own matcher, as `ensure_key_exists` invokes it:
direct hit first, then the first existing key compatible with the target. -/
def find_compatible_reminder_key (data : ReminderData) (target : String) : Option String :=
  if containsKey data target then some target
  else (keysOf data).find? (fun k => is_compatible_origin k target)

/-- `CompatibilityHandler.ensure_key_exists` (lines 786-805): the partition
key actually used, and the repository afterwards. -/
def ensure_key_exists (data : ReminderData) (origin : String) : String × ReminderData :=
  let targetKey :=
    match find_compatible_reminder_key data origin with
    | some k => k
    | none => origin
  if containsKey data targetKey then (targetKey, data)
  else (targetKey, data ++ [(targetKey, [])])

/-- `CompatibilityHandler.get_reminders` (lines 773-784): the direct lookup
it starts with is also the first step of `find_compatible_reminder_key`. -/
def compat_get_reminders (data : ReminderData) (origin : String) : List Reminder :=
  match find_compatible_reminder_key data origin with
  | some k => lookupList data k
  | none => []

/-- `CompatibilityHandler.remove_reminder` (lines 813-825): pop the item at
`index` of the compatible partition; `none` when no partition is found or
the index is out of range (the source returns an error message there). -/
def compat_remove_reminder (data : ReminderData) (origin : String) (index : Nat) :
    Option (Reminder × String × ReminderData) :=
  match find_compatible_reminder_key data origin with
  | none => none
  | some k =>
    let reminders := lookupList data k
    if h : index < reminders.length then
      some (reminders.get ⟨index, h⟩, k, setKey data k (reminders.eraseIdx index))
    else none

/-! ## Time parsing (src/utils.py lines 7-228)

The parsers are modelled after a successful `strptime`/field extraction:
each takes the parsed minute-precision value (or hour/minute fields) and the
clock, and performs the source's past-time adjustment.  `Option` is `none`
where the Python code raises `ValueError` (a `replace(year=...)` landing on
an invalid date, or an out-of-range field). -/

/-- Python `dt.replace(year=y)`: fails (raises) when the month/day does not
exist in the target year (Feb 29 of a non-leap year). -/
def replaceYear (t : DateTime) (y : Nat) : Option DateTime :=
  if t.date.day ≤ daysInMonth y t.date.month then
    some { t with date := { t.date with year := y } }
  else none

/-- `utils.parse_datetime_for_llm` (lines 17-32), after a successful
`strptime(datetime_str, "%Y-%m-%d %H:%M")`: the past-time adjustment the
LLM entry point applies before re-formatting the value. -/
def parse_datetime_for_llm (dt : DateTime) (now : NowTime) : Option DateTime :=
  if pyLtFull dt now then
    if Date.lt dt.date now.trunc.date then
      if dt.date.year = now.trunc.date.year then replaceYear dt (now.trunc.date.year + 1)
      else some dt
    else some dt
  else some dt

/-- `utils.parse_datetime`, the `YYYY-MM-DD-HH:MM` branch (lines 88-98),
after the fields have been read and validated: past years are first pulled
up to the current year, then a timestamp still in the past (and not exactly
the current minute) is moved to next year. -/
def parse_datetime_full_adjust (dt : DateTime) (now : NowTime) : Option DateTime :=
  match (if dt.date.year < now.trunc.date.year then replaceYear dt now.trunc.date.year else some dt) with
  | none => none
  | some dt1 =>
    if pyLtFull dt1 now && dt1 != now.trunc then replaceYear dt1 (now.trunc.date.year + 1)
    else some dt1

/-- `utils.parse_datetime`, the `HH:MM` branch (lines 176-195): today at
`hour:minute`; when that is already past (and not exactly the current
minute) the following calendar day. `none` models the range `ValueError`. -/
def parse_datetime_hm (hour minute : Nat) (now : NowTime) : Option DateTime :=
  if hour ≤ 23 ∧ minute ≤ 59 then
    let dt : DateTime := { date := now.trunc.date, hour := hour, minute := minute }
    if pyLtFull dt now && dt != now.trunc then some { dt with date := Date.next dt.date }
    else some dt
  else none

/-! ## Session isolation (src/tools.py lines 27-52, src/command_utils.py lines 400-423) -/

/-- `s.rsplit(":", 1)` as used by the session-id builders: the pieces around
the last colon, when one exists. -/
def rsplitColonStr (s : String) : Option (String × String) :=
  match rsplitColonList s.data with
  | some (a, b) => some (String.mk a, String.mk b)
  | none => none

/-- `SessionHelper._get_session_id_with_isolation` (command_utils.py lines
400-423); `ReminderTools.get_session_id` (tools.py lines 27-52) runs the
same body after its `unique_session` guard. -/
def get_session_id_with_isolation (msgOrigin : String) (creatorId : Option String) : String :=
  match creatorId with
  | none => msgOrigin
  | some c =>
    if c ≠ "" ∧ strHasSub msgOrigin ":" = true then
      if strHasSub msgOrigin ":GroupMessage:" = true ∨ strHasSub msgOrigin "@chatroom" = true
          ∨ strHasSub msgOrigin ":ChannelMessage:" = true then
        match rsplitColonStr msgOrigin with
        | some (a, b) => a ++ ":" ++ b ++ "_" ++ c
        | none => msgOrigin
      else msgOrigin
    else msgOrigin

/-- `ReminderTools.get_session_id` (tools.py lines 27-52). -/
def get_session_id (uniqueSession : Bool) (msgOrigin : String) (creatorId : Option String) : String :=
  if uniqueSession = false then msgOrigin
  else get_session_id_with_isolation msgOrigin creatorId

/-! ## Whitelist permission (src/utils.py lines 265-289) -/

def errNoPermission : String := "抱歉，您没有权限使用此插件功能。"

/-- The cleaned whitelist entries: full-width commas normalised, split on
commas, entries stripped, empties dropped (lines 280-281). -/
def allowedUsersOf (whitelist : String) : List String :=
  ((splitOnChar ',' (whitelist.data.map (fun c => if c = '，' then ',' else c))).map
      (fun l => pyStrip (String.mk l))).filter (fun u => u ≠ "")

/-- `utils.check_user_permission` (lines 265-289). -/
def check_user_permission (userId whitelist : String) : Bool × Option String :=
  if whitelist = "" ∨ pyStrip whitelist = "" then (true, none)
  else
    let allowed := allowedUsersOf whitelist
    if allowed = [] then (true, none)
    else if userId ∈ allowed then (true, none)
    else (false, some errNoPermission)

/-! ## Holiday calendar (src/utils.py lines 472-535)

`is_holiday` / `is_workday` consult the fetched per-year map through its
`"%m-%d"` keys; the embedding indexes the map by the `(month, day)` pair,
the exact content of that zero-padded key. -/

/-- The fetched holiday map of one year: month-day key to flag (true =
statutory holiday, false = compensatory workday). -/
abbrev HolidayMap := List ((Nat × Nat) × Bool)

def holidayLookup (m : HolidayMap) (k : Nat × Nat) : Option Bool :=
  match m.find? (fun p => p.1 == k) with
  | some p => some p.2
  | none => none

/-- `HolidayManager.is_holiday` (lines 472-502) for a given fetched map. -/
def is_holiday (m : HolidayMap) (d : Date) : Bool :=
  match holidayLookup m (d.month, d.day) with
  | some v => v == true
  | none => decide (5 ≤ d.weekday)

/-- `HolidayManager.is_workday` (lines 504-535) for a given fetched map. -/
def is_workday (m : HolidayMap) (d : Date) : Bool :=
  match holidayLookup m (d.month, d.day) with
  | some v => v == false
  | none => !(decide (5 ≤ d.weekday))

/-! ## Pruning on save (src/utils.py lines 230-263) -/

/-- `utils.is_outdated` (lines 230-239): the parsed trigger time is strictly
before now; `false` when the field is missing. -/
def is_outdated (r : Reminder) (now : NowTime) : Bool :=
  match r.datetime with
  | some dt => pyLtFull dt now
  | none => false

/-- The cleanup `utils.save_reminder_data` (lines 249-263) performs before
writing: drop items with a missing/empty datetime and expired one-shot
items, then drop partitions left empty. -/
def save_cleanup (data : ReminderData) (now : NowTime) : ReminderData :=
  (data.map (fun p =>
      (p.1, p.2.filter (fun r =>
        r.datetime.isSome && !(r.repeatKind.getD "none" == "none" && is_outdated r now))))).filter
    (fun p => !p.2.isEmpty)

/-! ## Creation limits and `process_add_item` (src/utils.py lines 305-332,
src/command_utils.py lines 588-760) -/

def perUserLimitMsg (maxPerUser : Int) : String :=
  "提醒创建失败：已达到每用户最大提醒数量限制(" ++ toString maxPerUser ++ ")。请删除一些旧提醒后再试。"

def globalLimitMsg (maxPerUser : Int) : String :=
  "提醒创建失败：已达到全局最大提醒数量限制(" ++ toString maxPerUser ++ ")。请删除一些旧提醒后再试。"

def totalReminderCount (data : ReminderData) : Nat :=
  (data.map (fun p => p.2.length)).foldl (· + ·) 0

/-- `utils.check_reminder_limit` (lines 305-332). -/
def check_reminder_limit (data : ReminderData) (sessionKey : String) (maxPerUser : Int)
    (uniqueSession : Bool) : Bool × Option String :=
  if maxPerUser ≤ 0 then (true, none)
  else if uniqueSession then
    if maxPerUser ≤ ((lookupList data sessionKey).length : Int) then
      (false, some (perUserLimitMsg maxPerUser))
    else (true, none)
  else if maxPerUser ≤ (totalReminderCount data : Int) then
    (false, some (globalLimitMsg maxPerUser))
  else (true, none)

/-- A live job of the scheduler, as the deletion code observes it: its id
and the `(session_key, reminder)` arguments it was registered with (the
reminder projected to the `text` and `datetime` fields the scan compares). -/
structure Job where
  id : String
  sessionId : String
  jobText : String
  jobDatetime : Option DateTime
  deriving DecidableEq, Repr

inductive AddOutcome where
  | capacityError (msg : String)
  | ok (key : String)
  deriving DecidableEq, Repr

/-- `UnifiedCommandProcessor.process_add_item`, steps 5-10 (command_utils.py
lines 676-728), entered after time parsing and parameter validation
succeeded: resolve/create the partition key, check the count limit (and on
failure report without appending), otherwise append the item, schedule the
job (`freshJobId` standing for the id the scheduler returns) and record the
id on the item. -/
def process_add_item (data : ReminderData) (jobs : List Job) (msgOrigin : String)
    (item : Reminder) (maxPerUser : Int) (uniqueSession : Bool) (freshJobId : String) :
    AddOutcome × ReminderData × List Job :=
  let r := ensure_key_exists data msgOrigin
  let actualKey := r.1
  let d1 := r.2
  let chk := check_reminder_limit d1 actualKey maxPerUser uniqueSession
  if chk.1 = false then (AddOutcome.capacityError (chk.2.getD ""), d1, jobs)
  else
    let item2 := { item with jobId := some freshJobId }
    (AddOutcome.ok actualKey,
     setKey d1 actualKey (lookupList d1 actualKey ++ [item2]),
     jobs ++ [{ id := freshJobId, sessionId := actualKey, jobText := item.text,
                jobDatetime := item.datetime }])

/-! ## Two-tier job removal on delete (src/commands.py lines 147-240,
src/tools.py lines 479-524) -/

/-- Modelled from the spec: the job store's removal by id,
`remove(jobId) -> ok | NotFound` (spec section 4.4) — the scheduler class
itself (`src/scheduler.py`, imported by main.py) is not among the
repository files; `none` models the `JobLookupError` the deletion code
catches.  Job ids are unique in the store, so removing the first id match
is removing the job with that id. -/
def removeJobById (jobs : List Job) (jid : String) : Option (List Job) :=
  if jobs.any (fun j => j.id == jid) then some (jobs.eraseP (fun j => j.id == jid))
  else none

/-- The content-match predicate of the fallback scan (commands.py lines
194-210): a reminder-prefixed job id, the owning partition key, and exact
equality of `text` and `datetime`. -/
def contentMatch (actualKey : String) (item : Reminder) (j : Job) : Bool :=
  "reminder_".data.isPrefixOf j.id.data && j.sessionId == actualKey
    && j.jobText == item.text && j.jobDatetime == item.datetime

/-- The two-tier removal of the scheduled job (commands.py lines 181-213):
by the stored `job_id` if present and known to the store, else the first
content match, else nothing — the flag tells whether any job was found. -/
def removeJobTwoTier (jobs : List Job) (actualKey : String) (item : Reminder) :
    Bool × List Job :=
  let fallback :=
    match jobs.find? (contentMatch actualKey item) with
    | some _ => (true, jobs.eraseP (contentMatch actualKey item))
    | none => (false, jobs)
  match item.jobId with
  | some jid =>
    if jid ≠ "" then
      match removeJobById jobs jid with
      | some jobs2 => (true, jobs2)
      | none => fallback
    else fallback
  | none => fallback

def msgNoReminders : String := "没有设置任何提醒或任务。"

def msgBadIndex : String := "序号无效。"

/-- `ReminderCommands.remove_reminder` (commands.py lines 147-240): list the
partition, validate the 1-based index, pop the item, attempt the two-tier
job removal, and report success whether or not a job was found. -/
def remove_reminder_command (data : ReminderData) (jobs : List Job) (origin : String)
    (index : Nat) : Except String (Reminder × String × ReminderData × List Job × Bool) :=
  let reminders := compat_get_reminders data origin
  if reminders = [] then Except.error msgNoReminders
  else if index < 1 ∨ reminders.length < index then Except.error msgBadIndex
  else
    match compat_remove_reminder data origin (index - 1) with
    | none => Except.error msgBadIndex
    | some (item, key, d2) =>
      let tt := removeJobTwoTier jobs key item
      Except.ok (item, key, d2, tt.2, tt.1)

/-! ## Parameter validation and repair (src/command_utils.py lines 174-232) -/

def weekMapKeys : List String := ["mon", "tue", "wed", "thu", "fri", "sat", "sun"]

def repeatTypesList : List String := ["daily", "weekly", "monthly", "yearly", "none"]

def holidayTypesList : List String := ["workday", "holiday"]

def errWeekFormat : String := "星期格式错误，可选值：mon,tue,wed,thu,fri,sat,sun"

def errRepeatType : String := "重复类型错误，可选值：daily,weekly,monthly,yearly,none"

def errHolidayType : String := "节假日类型错误，可选值：workday(仅工作日执行)，holiday(仅法定节假日执行)"

/-- Python truthiness of an optional string argument. -/
def truthy : Option String → Bool
  | none => false
  | some s => s != ""

/-- Lines 224-232 of `validate_and_adjust_parameters`: the recurrence and
holiday-kind validations after all repairs. -/
def validateSlots (week rp hol : Option String) :
    Bool × String × Option String × Option String × Option String :=
  if truthy rp && !(repeatTypesList.contains (asciiLower (rp.getD ""))) then
    (false, errRepeatType, none, none, none)
  else if truthy hol && !(holidayTypesList.contains (asciiLower (hol.getD ""))) then
    (false, errHolidayType, none, none, none)
  else (true, "", week, rp, hol)

/-- Lines 216-232 of `validate_and_adjust_parameters`: the two-token
recurrence split, then the recurrence and holiday-kind validations. -/
def validateTail (week rp hol : Option String) :
    Bool × String × Option String × Option String × Option String :=
  let sp :=
    if truthy rp then
      match pySplitWs (rp.getD "") with
      | [a, b] => if holidayTypesList.contains b then (some a, some b) else (rp, hol)
      | _ => (rp, hol)
    else (rp, hol)
  validateSlots week sp.1 sp.2

/-- `ParameterValidator.validate_and_adjust_parameters` (lines 187-232). -/
def validate_and_adjust_parameters (week rp hol : Option String) :
    Bool × String × Option String × Option String × Option String :=
  if truthy week then
    let w := week.getD ""
    if weekMapKeys.contains (asciiLower w) then validateTail week rp hol
    else if repeatTypesList.contains (asciiLower w) || holidayTypesList.contains (asciiLower w) then
      if truthy rp then validateTail none (some w) rp
      else validateTail none (some w) hol
    else (false, errWeekFormat, none, none, none)
  else validateTail week rp hol

/-! ## C10: whitelist permission -/

/-- C10: `check_user_permission` grants access to every user id when the
whitelist is empty, whitespace-only, or has no nonempty entries after
splitting; otherwise it grants access exactly to the user ids appearing
(after trimming, with full-width commas as separators) in the list, and
returns the error message for every other user id. -/
theorem check_user_permission_spec (u w : String) :
    (pyStrip w = "" → check_user_permission u w = (true, none))
    ∧ (allowedUsersOf w = [] → check_user_permission u w = (true, none))
    ∧ (pyStrip w ≠ "" → u ∈ allowedUsersOf w → check_user_permission u w = (true, none))
    ∧ (pyStrip w ≠ "" → u ∉ allowedUsersOf w → allowedUsersOf w ≠ [] →
        check_user_permission u w = (false, some errNoPermission)) := by
  have hes : pyStrip "" = "" := rfl
  refine ⟨?_, ?_, ?_, ?_⟩
  · intro h
    unfold check_user_permission
    rw [if_pos (Or.inr h)]
  · intro h
    unfold check_user_permission
    by_cases h0 : w = "" ∨ pyStrip w = ""
    · rw [if_pos h0]
    · rw [if_neg h0]
      simp [h]
  · intro hne hmem
    have h0 : ¬(w = "" ∨ pyStrip w = "") := by
      rintro (hc | hc)
      · exact hne (by rw [hc]; exact hes)
      · exact hne hc
    have hnn : allowedUsersOf w ≠ [] := by
      intro hnil
      rw [hnil] at hmem
      simp at hmem
    unfold check_user_permission
    rw [if_neg h0]
    simp only [if_neg hnn, if_pos hmem]
  · intro hne hnot hnn
    have h0 : ¬(w = "" ∨ pyStrip w = "") := by
      rintro (hc | hc)
      · exact hne (by rw [hc]; exact hes)
      · exact hne hc
    unfold check_user_permission
    rw [if_neg h0]
    simp only [if_neg hnn, if_neg hnot]

/-- Witness for C10 at concrete inputs: a listed user passes, an unlisted
user is rejected, a whitespace-only whitelist admits everyone. -/
theorem check_user_permission_spec_witness :
    check_user_permission "123" " 123 ，456" = (true, none)
    ∧ check_user_permission "789" " 123 ，456" = (false, some errNoPermission)
    ∧ check_user_permission "789" "   " = (true, none) := by
  refine ⟨?_, ?_, ?_⟩
  · exact (check_user_permission_spec "123" " 123 ，456").2.2.1 (by decide) (by decide)
  · exact (check_user_permission_spec "789" " 123 ，456").2.2.2 (by decide) (by decide) (by decide)
  · exact (check_user_permission_spec "789" "   ").1 (by decide)

/-! ## C7: holiday / workday classification -/

/-- C7: for every date and fixed per-year holiday map, `is_holiday` and
`is_workday` are never both true; a date whose month-day key is unlisted
yields (false, true) on Monday-Friday and (true, false) on Saturday/Sunday;
a listed date follows its map entry regardless of weekday (true entry:
holiday and not workday; false entry: workday and not holiday). -/
theorem holiday_workday_spec (m : HolidayMap) (d : Date) :
    (¬(is_holiday m d = true ∧ is_workday m d = true))
    ∧ (holidayLookup m (d.month, d.day) = none →
        (d.weekday < 5 → is_holiday m d = false ∧ is_workday m d = true)
        ∧ (5 ≤ d.weekday → is_holiday m d = true ∧ is_workday m d = false))
    ∧ (∀ b, holidayLookup m (d.month, d.day) = some b →
        is_holiday m d = b ∧ is_workday m d = !b) := by
  unfold is_holiday is_workday
  rcases hl : holidayLookup m (d.month, d.day) with _ | b
  · refine ⟨?_, ?_, ?_⟩
    · by_cases hw : 5 ≤ d.weekday <;> simp [hw]
    · intro _
      constructor
      · intro hlt
        have hw : ¬(5 ≤ d.weekday) := by omega
        simp [hw]
      · intro hge
        simp [hge]
    · intro b hb
      cases hb
  · refine ⟨?_, ?_, ?_⟩
    · cases b <;> simp
    · intro h
      cases h
    · intro b2 hb2
      cases hb2
      cases b <;> simp

/-- Witness for C7: an unlisted Monday, an unlisted Sunday, a Saturday
listed as compensatory workday (entry false) and a Thursday listed as
statutory holiday (entry true), against a concrete map. -/
theorem holiday_workday_spec_witness :
    (is_holiday [((10, 1), true), ((10, 17), false)] ⟨2026, 10, 12⟩ = false
      ∧ is_workday [((10, 1), true), ((10, 17), false)] ⟨2026, 10, 12⟩ = true)
    ∧ (is_holiday [((10, 1), true), ((10, 17), false)] ⟨2026, 10, 18⟩ = true
      ∧ is_workday [((10, 1), true), ((10, 17), false)] ⟨2026, 10, 18⟩ = false)
    ∧ (is_holiday [((10, 1), true), ((10, 17), false)] ⟨2026, 10, 17⟩ = false
      ∧ is_workday [((10, 1), true), ((10, 17), false)] ⟨2026, 10, 17⟩ = true)
    ∧ (is_holiday [((10, 1), true), ((10, 17), false)] ⟨2026, 10, 1⟩ = true
      ∧ is_workday [((10, 1), true), ((10, 17), false)] ⟨2026, 10, 1⟩ = false) := by
  refine ⟨?_, ?_, ?_, ?_⟩
  · exact ((holiday_workday_spec [((10, 1), true), ((10, 17), false)] ⟨2026, 10, 12⟩).2.1
      (by decide)).1 (by decide)
  · exact ((holiday_workday_spec [((10, 1), true), ((10, 17), false)] ⟨2026, 10, 18⟩).2.1
      (by decide)).2 (by decide)
  · exact (holiday_workday_spec [((10, 1), true), ((10, 17), false)] ⟨2026, 10, 17⟩).2.2
      false (by decide)
  · exact (holiday_workday_spec [((10, 1), true), ((10, 17), false)] ⟨2026, 10, 1⟩).2.2
      true (by decide)

/-! ## C8: pruning on save -/

/-- C8: after the cleanup performed by `save_reminder_data`, the saved
repository holds no item whose recurrence is none (or absent) with a
trigger time strictly before now, and no partition whose item list is
empty. -/
theorem save_cleanup_spec (data : ReminderData) (now : NowTime) (k : String)
    (rs : List Reminder) (hmem : (k, rs) ∈ save_cleanup data now) :
    rs ≠ [] ∧ ∀ r ∈ rs,
      ¬(r.repeatKind.getD "none" = "none" ∧ ∃ dt, r.datetime = some dt ∧ pyLtFull dt now = true) := by
  unfold save_cleanup at hmem
  rw [List.mem_filter] at hmem
  obtain ⟨hmap, hne⟩ := hmem
  constructor
  · intro hnil
    rw [hnil] at hne
    simp at hne
  · rw [List.mem_map] at hmap
    obtain ⟨⟨k0, rs0⟩, hmem0, heq⟩ := hmap
    have hrs : rs = rs0.filter (fun r =>
        r.datetime.isSome && !(r.repeatKind.getD "none" == "none" && is_outdated r now)) := by
      have := congrArg Prod.snd heq
      simpa using this.symm
    intro r hr
    rw [hrs, List.mem_filter] at hr
    obtain ⟨_, hpred⟩ := hr
    rw [Bool.and_eq_true] at hpred
    obtain ⟨hdt, hnot⟩ := hpred
    rintro ⟨hrep, dt, hdteq, hlt⟩
    rw [Bool.not_eq_true'] at hnot
    have : (r.repeatKind.getD "none" == "none" && is_outdated r now) = true := by
      rw [Bool.and_eq_true]
      constructor
      · exact beq_iff_eq.mpr hrep
      · unfold is_outdated
        rw [hdteq]
        exact hlt
    rw [this] at hnot
    cases hnot

/-- Witness for C8: a repository with an expired one-shot next to a live
item, and a partition holding only expired one-shots; after cleanup the
surviving partition satisfies the claim. -/
theorem save_cleanup_spec_witness :
    save_cleanup
        [("k1",
          [{ text := "old", datetime := some ⟨⟨2026, 10, 11⟩, 8, 0⟩, repeatKind := some "none",
             jobId := none, isTask := false },
           { text := "live", datetime := some ⟨⟨2026, 10, 13⟩, 8, 0⟩, repeatKind := some "none",
             jobId := none, isTask := false }]),
         ("k2",
          [{ text := "gone", datetime := some ⟨⟨2026, 10, 10⟩, 8, 0⟩, repeatKind := none,
             jobId := none, isTask := false }])]
        ⟨⟨⟨2026, 10, 12⟩, 10, 0⟩, 0⟩
      = [("k1",
          [{ text := "live", datetime := some ⟨⟨2026, 10, 13⟩, 8, 0⟩, repeatKind := some "none",
             jobId := none, isTask := false }])]
    ∧ ([{ text := "live", datetime := some ⟨⟨2026, 10, 13⟩, 8, 0⟩, repeatKind := some "none",
          jobId := none, isTask := false }] : List Reminder) ≠ []
    ∧ ∀ r ∈ ([{ text := "live", datetime := some ⟨⟨2026, 10, 13⟩, 8, 0⟩,
                repeatKind := some "none", jobId := none, isTask := false }] : List Reminder),
        ¬(r.repeatKind.getD "none" = "none" ∧
          ∃ dt, r.datetime = some dt ∧ pyLtFull dt ⟨⟨⟨2026, 10, 12⟩, 10, 0⟩, 0⟩ = true) := by
  have happ := save_cleanup_spec
    [("k1",
      [{ text := "old", datetime := some ⟨⟨2026, 10, 11⟩, 8, 0⟩, repeatKind := some "none",
         jobId := none, isTask := false },
       { text := "live", datetime := some ⟨⟨2026, 10, 13⟩, 8, 0⟩, repeatKind := some "none",
         jobId := none, isTask := false }]),
     ("k2",
      [{ text := "gone", datetime := some ⟨⟨2026, 10, 10⟩, 8, 0⟩, repeatKind := none,
         jobId := none, isTask := false }])]
    ⟨⟨⟨2026, 10, 12⟩, 10, 0⟩, 0⟩
    "k1"
    [{ text := "live", datetime := some ⟨⟨2026, 10, 13⟩, 8, 0⟩, repeatKind := some "none",
       jobId := none, isTask := false }]
    (by decide)
  exact ⟨by decide, happ.1, happ.2⟩

/-! ## C9: per-user session isolation -/

theorem rsplitColonStr_join (s a b : String) (h : rsplitColonStr s = some (a, b)) :
    a ++ ":" ++ b = s := by
  unfold rsplitColonStr at h
  rcases hr : rsplitColonList s.data with _ | ⟨la, lb⟩
  · rw [hr] at h; cases h
  · rw [hr] at h
    obtain ⟨ha, hb⟩ := Prod.mk.injEq .. ▸ (Option.some.injEq .. ▸ h)
    have hjoin := rsplitColonList_join s.data la lb hr
    apply String.ext
    rw [String.data_append, String.data_append]
    rw [← ha, ← hb]
    simpa using hjoin

theorem rsplitColonStr_isSome (s : String) (h : strHasSub s ":" = true) :
    ∃ a b, rsplitColonStr s = some (a, b) := by
  have hc : ':' ∈ s.data := mem_of_hasSubList_singleton ':' s.data h
  obtain ⟨la, lb, hr⟩ := rsplitColonList_isSome s.data hc
  exact ⟨String.mk la, String.mk lb, by unfold rsplitColonStr; rw [hr]⟩

/-- C9: with per-user isolation enabled, the session-key builder appends
`_creator` to the raw origin exactly for group-type origins (those carrying
a `:GroupMessage:`, `@chatroom` or `:ChannelMessage:` marker, with a colon
and a nonempty creator id); every other origin — private chats, origins
without a colon, or calls without a creator id — is returned unchanged, and
so is everything when isolation is off. -/
theorem get_session_id_spec (o c : String) (cid : Option String) :
    (strHasSub o ":" = true →
      (strHasSub o ":GroupMessage:" = true ∨ strHasSub o "@chatroom" = true
        ∨ strHasSub o ":ChannelMessage:" = true) →
      c ≠ "" → get_session_id true o (some c) = o ++ "_" ++ c)
    ∧ (strHasSub o ":GroupMessage:" = false → strHasSub o "@chatroom" = false →
        strHasSub o ":ChannelMessage:" = false → get_session_id true o cid = o)
    ∧ (strHasSub o ":" = false → get_session_id true o cid = o)
    ∧ (get_session_id true o none = o ∧ get_session_id true o (some "") = o)
    ∧ (get_session_id false o cid = o)
    ∧ (get_session_id true o cid = get_session_id_with_isolation o cid) := by
  have hiso : ∀ (o2 : String) (cid2 : Option String),
      get_session_id true o2 cid2 = get_session_id_with_isolation o2 cid2 := by
    intro o2 cid2
    unfold get_session_id
    simp
  refine ⟨?_, ?_, ?_, ⟨?_, ?_⟩, ?_, hiso o cid⟩
  · intro hcol hmark hc
    obtain ⟨a, b, hab⟩ := rsplitColonStr_isSome o hcol
    have hjoin := rsplitColonStr_join o a b hab
    rw [hiso]
    unfold get_session_id_with_isolation
    rcases hmark with hm | hm | hm <;>
      (simp [hcol, hm, hab, hc]; rw [← hjoin])
  · intro h1 h2 h3
    rw [hiso]
    unfold get_session_id_with_isolation
    cases cid with
    | none => rfl
    | some c0 => simp [h1, h2, h3]
  · intro h1
    rw [hiso]
    unfold get_session_id_with_isolation
    cases cid with
    | none => rfl
    | some c0 => simp [h1]
  · rw [hiso]
    rfl
  · rw [hiso]
    unfold get_session_id_with_isolation
    simp
  · rfl

/-- Witness for C9: a group origin gets the creator suffix, a private-chat
origin of the same platform does not, and a colon-free origin is kept. -/
theorem get_session_id_spec_witness :
    get_session_id true "aiocqhttp:GroupMessage:123" (some "u9") = "aiocqhttp:GroupMessage:123_u9"
    ∧ get_session_id true "aiocqhttp:FriendMessage:123" (some "u9") = "aiocqhttp:FriendMessage:123"
    ∧ get_session_id true "wxid@chatroom" (some "u9") = "wxid@chatroom"
    ∧ get_session_id false "aiocqhttp:GroupMessage:123" (some "u9") = "aiocqhttp:GroupMessage:123" := by
  refine ⟨?_, ?_, ?_, ?_⟩
  · exact (get_session_id_spec "aiocqhttp:GroupMessage:123" "u9" (some "u9")).1
      (by decide) (Or.inl (by decide)) (by decide)
  · exact (get_session_id_spec "aiocqhttp:FriendMessage:123" "u9" (some "u9")).2.1
      (by decide) (by decide) (by decide)
  · exact (get_session_id_spec "wxid@chatroom" "u9" (some "u9")).2.2.1 (by decide)
  · exact (get_session_id_spec "aiocqhttp:GroupMessage:123" "u9" (some "u9")).2.2.2.2.1

/-! ## C3: the LLM entry point's past-time rule vs the interactive parser's -/

/-- C3 counterexample: a fully-qualified `YYYY-MM-DD HH:MM` value that is a
same-day past time (2026-10-12 08:00 against now = 2026-10-12 10:00) is
returned unchanged — still strictly before now — by
`parse_datetime_for_llm`, while `parse_datetime`'s fully-qualified branch
rolls the same value forward to 2027; the two entry points do not share the
past-rollover rule. -/
theorem parse_datetime_for_llm_not_same_rollover :
    parse_datetime_for_llm ⟨⟨2026, 10, 12⟩, 8, 0⟩ ⟨⟨⟨2026, 10, 12⟩, 10, 0⟩, 0⟩
      = some ⟨⟨2026, 10, 12⟩, 8, 0⟩
    ∧ pyLtFull ⟨⟨2026, 10, 12⟩, 8, 0⟩ ⟨⟨⟨2026, 10, 12⟩, 10, 0⟩, 0⟩ = true
    ∧ parse_datetime_full_adjust ⟨⟨2026, 10, 12⟩, 8, 0⟩ ⟨⟨⟨2026, 10, 12⟩, 10, 0⟩, 0⟩
      = some ⟨⟨2027, 10, 12⟩, 8, 0⟩
    ∧ pyLtFull ⟨⟨2027, 10, 12⟩, 8, 0⟩ ⟨⟨⟨2026, 10, 12⟩, 10, 0⟩, 0⟩ = false := by
  decide

/-- C3 (amended): `parse_datetime_for_llm` applies a weaker rule than
`parse_datetime`: only an input whose calendar date is past and whose year
equals the current year is advanced — by one year, which makes it strictly
future; a same-day past time and a date in an earlier year are returned
unchanged (possibly still in the past). -/
theorem parse_datetime_for_llm_adjust_spec (dt : DateTime) (now : NowTime) :
    (pyLtFull dt now = false → parse_datetime_for_llm dt now = some dt)
    ∧ (pyLtFull dt now = true → Date.lt dt.date now.trunc.date = false →
        parse_datetime_for_llm dt now = some dt)
    ∧ (pyLtFull dt now = true → Date.lt dt.date now.trunc.date = true →
        dt.date.year ≠ now.trunc.date.year → parse_datetime_for_llm dt now = some dt)
    ∧ (pyLtFull dt now = true → Date.lt dt.date now.trunc.date = true →
        dt.date.year = now.trunc.date.year →
        parse_datetime_for_llm dt now = replaceYear dt (now.trunc.date.year + 1)
        ∧ ∀ dt2, replaceYear dt (now.trunc.date.year + 1) = some dt2 →
            DateTime.lt now.trunc dt2 = true) := by
  unfold parse_datetime_for_llm
  refine ⟨?_, ?_, ?_, ?_⟩
  · intro h
    rw [h]
    rfl
  · intro h1 h2
    rw [h1, h2]
    rfl
  · intro h1 h2 h3
    rw [h1, h2]
    simp only [if_true, if_neg h3]
  · intro h1 h2 h3
    rw [h1, h2]
    constructor
    · simp only [if_true, if_pos h3]
    · intro dt2 hdt2
      unfold replaceYear at hdt2
      by_cases hle : dt.date.day ≤ daysInMonth (now.trunc.date.year + 1) dt.date.month
      · rw [if_pos hle] at hdt2
        have hdt2e : dt2 = { dt with date := { dt.date with year := now.trunc.date.year + 1 } } :=
          (Option.some.injEq .. ▸ hdt2).symm
        rw [hdt2e]
        unfold DateTime.lt Date.lt
        simp only
        have : now.trunc.date.year < now.trunc.date.year + 1 := by omega
        simp [this]
      · rw [if_neg hle] at hdt2
        cases hdt2

/-- Witness for C3's amended theorem: a future time is kept, a same-day
past time is kept, a past date of an earlier year is kept, and a past date
of the current year is advanced one year into the future. -/
theorem parse_datetime_for_llm_adjust_spec_witness :
    parse_datetime_for_llm ⟨⟨2026, 10, 13⟩, 8, 0⟩ ⟨⟨⟨2026, 10, 12⟩, 10, 0⟩, 0⟩
      = some ⟨⟨2026, 10, 13⟩, 8, 0⟩
    ∧ parse_datetime_for_llm ⟨⟨2026, 10, 12⟩, 9, 0⟩ ⟨⟨⟨2026, 10, 12⟩, 10, 0⟩, 0⟩
      = some ⟨⟨2026, 10, 12⟩, 9, 0⟩
    ∧ parse_datetime_for_llm ⟨⟨2020, 3, 1⟩, 8, 0⟩ ⟨⟨⟨2026, 10, 12⟩, 10, 0⟩, 0⟩
      = some ⟨⟨2020, 3, 1⟩, 8, 0⟩
    ∧ (parse_datetime_for_llm ⟨⟨2026, 3, 1⟩, 8, 0⟩ ⟨⟨⟨2026, 10, 12⟩, 10, 0⟩, 0⟩
        = replaceYear ⟨⟨2026, 3, 1⟩, 8, 0⟩ 2027
      ∧ DateTime.lt (⟨⟨2026, 10, 12⟩, 10, 0⟩ : DateTime) ⟨⟨2027, 3, 1⟩, 8, 0⟩ = true) := by
  refine ⟨?_, ?_, ?_, ?_, ?_⟩
  · exact (parse_datetime_for_llm_adjust_spec ⟨⟨2026, 10, 13⟩, 8, 0⟩
      ⟨⟨⟨2026, 10, 12⟩, 10, 0⟩, 0⟩).1 (by decide)
  · exact (parse_datetime_for_llm_adjust_spec ⟨⟨2026, 10, 12⟩, 9, 0⟩
      ⟨⟨⟨2026, 10, 12⟩, 10, 0⟩, 0⟩).2.1 (by decide) (by decide)
  · exact (parse_datetime_for_llm_adjust_spec ⟨⟨2020, 3, 1⟩, 8, 0⟩
      ⟨⟨⟨2026, 10, 12⟩, 10, 0⟩, 0⟩).2.2.1 (by decide) (by decide) (by decide)
  · exact ((parse_datetime_for_llm_adjust_spec ⟨⟨2026, 3, 1⟩, 8, 0⟩
      ⟨⟨⟨2026, 10, 12⟩, 10, 0⟩, 0⟩).2.2.2 (by decide) (by decide) (by decide)).1
  · exact ((parse_datetime_for_llm_adjust_spec ⟨⟨2026, 3, 1⟩, 8, 0⟩
      ⟨⟨⟨2026, 10, 12⟩, 10, 0⟩, 0⟩).2.2.2 (by decide) (by decide) (by decide)).2
      ⟨⟨2027, 3, 1⟩, 8, 0⟩ (by decide)

/-! ## C4: the HH:MM branch and the "following calendar day" rule -/

/-- C4 counterexample: an `HH:MM` input equal to now truncated to the
minute (10:00 against now = 2026-10-12 10:00:30) satisfies "the resulting
same-day timestamp is less than or equal to now at minute granularity",
yet `parse_datetime` keeps it on the same calendar day instead of moving it
to the following one. -/
theorem parse_datetime_hm_not_next_day_at_equality :
    parse_datetime_hm 10 0 ⟨⟨⟨2026, 10, 12⟩, 10, 0⟩, 30⟩
      = some ⟨⟨2026, 10, 12⟩, 10, 0⟩
    ∧ DateTime.lt ⟨⟨2026, 10, 12⟩, 10, 0⟩ ⟨⟨2026, 10, 12⟩, 10, 0⟩ = false := by
  decide

theorem DateTime.lt_irrefl (a : DateTime) : DateTime.lt a a = false := by
  unfold DateTime.lt Date.lt
  simp

/-- C4 (amended): for every valid `HH:MM` input, when the same-day
timestamp is STRICTLY before now at minute granularity the parser returns
the following calendar day (day number advanced by exactly one) at that
hour and minute; when it equals now truncated to the minute it is returned
unchanged for the same day. -/
theorem parse_datetime_hm_spec (h m : Nat) (now : NowTime) (hh : h ≤ 23) (hm : m ≤ 59)
    (hv : now.trunc.date.valid) :
    (DateTime.lt ⟨now.trunc.date, h, m⟩ now.trunc = true →
      parse_datetime_hm h m now = some ⟨Date.next now.trunc.date, h, m⟩
      ∧ (Date.next now.trunc.date).ordinal = now.trunc.date.ordinal + 1)
    ∧ ((⟨now.trunc.date, h, m⟩ : DateTime) = now.trunc →
      parse_datetime_hm h m now = some ⟨now.trunc.date, h, m⟩) := by
  constructor
  · intro hlt
    constructor
    · unfold parse_datetime_hm
      rw [if_pos ⟨hh, hm⟩]
      have hne : (⟨now.trunc.date, h, m⟩ : DateTime) ≠ now.trunc := by
        intro he
        rw [he] at hlt
        rw [DateTime.lt_irrefl] at hlt
        cases hlt
      have hcond : (pyLtFull ⟨now.trunc.date, h, m⟩ now
          && (⟨now.trunc.date, h, m⟩ : DateTime) != now.trunc) = true := by
        rw [Bool.and_eq_true]
        constructor
        · unfold pyLtFull
          rw [hlt]
          rfl
        · simpa using hne
      rw [if_pos hcond]
    · exact Date.ordinal_next now.trunc.date hv
  · intro heq
    unfold parse_datetime_hm
    rw [if_pos ⟨hh, hm⟩]
    have hcond : (pyLtFull ⟨now.trunc.date, h, m⟩ now
        && (⟨now.trunc.date, h, m⟩ : DateTime) != now.trunc) = false := by
      rw [Bool.and_eq_false_iff]
      right
      simp [heq]
    rw [if_neg (by rw [hcond]; exact Bool.false_ne_true)]

/-- Witness for C4's amended theorem: 09:05 against now = 2026-10-12
10:00 moves to 2026-10-13 09:05 (day number +1); 10:00 stays on the same
day. -/
theorem parse_datetime_hm_spec_witness :
    (parse_datetime_hm 9 5 ⟨⟨⟨2026, 10, 12⟩, 10, 0⟩, 0⟩ = some ⟨⟨2026, 10, 13⟩, 9, 5⟩
      ∧ (Date.next ⟨2026, 10, 12⟩).ordinal = (Date.ordinal ⟨2026, 10, 12⟩) + 1)
    ∧ parse_datetime_hm 10 0 ⟨⟨⟨2026, 10, 12⟩, 10, 0⟩, 0⟩ = some ⟨⟨2026, 10, 12⟩, 10, 0⟩ := by
  constructor
  · have happ := (parse_datetime_hm_spec 9 5 ⟨⟨⟨2026, 10, 12⟩, 10, 0⟩, 0⟩
      (by decide) (by decide) (by decide)).1 (by decide)
    exact ⟨happ.1, happ.2⟩
  · exact (parse_datetime_hm_spec 10 0 ⟨⟨⟨2026, 10, 12⟩, 10, 0⟩, 0⟩
      (by decide) (by decide) (by decide)).2 (by decide)

/-! ## C6: parameter repair in `validate_and_adjust_parameters` -/

theorem validateSlots_msg (w r h : Option String) :
    (validateSlots w r h).2.1 = "" ∨ (validateSlots w r h).2.1 = errRepeatType
      ∨ (validateSlots w r h).2.1 = errHolidayType := by
  unfold validateSlots
  split
  · simp
  · split <;> simp

theorem validateTail_msg (w r h : Option String) :
    (validateTail w r h).2.1 = "" ∨ (validateTail w r h).2.1 = errRepeatType
      ∨ (validateTail w r h).2.1 = errHolidayType := by
  unfold validateTail
  exact validateSlots_msg w _ _

theorem pySplitWs_empty : pySplitWs "" = [] := by
  decide

/-- C6: a weekday token outside the weekday set that is a valid
recurrence-kind or holiday-kind token is shifted into the recurrence slot
(pushing a present recurrence argument into the holiday slot) and the
weekday slot is cleared, and the weekday-format error is never produced for
it; a recurrence argument of two space-separated tokens whose second is a
valid holiday-kind is split into `(recurrence, holidayFilter)` before
validation; a recurrence token still unrecognized after these repairs is
rejected with the error naming the accepted recurrence values, and an
unrecognized holiday-kind token with the error naming the accepted
holiday-kind values. -/
theorem validate_and_adjust_parameters_spec :
    (∀ (w : String) (rp hol : Option String), w ≠ "" →
      weekMapKeys.contains (asciiLower w) = false →
      (repeatTypesList.contains (asciiLower w) = true
        ∨ holidayTypesList.contains (asciiLower w) = true) →
      validate_and_adjust_parameters (some w) rp hol
          = validateTail none (some w) (if truthy rp then rp else hol)
        ∧ (validate_and_adjust_parameters (some w) rp hol).2.1 ≠ errWeekFormat)
    ∧ (∀ (s a b : String) (week hol : Option String),
        (truthy week = false ∨ weekMapKeys.contains (asciiLower (week.getD "")) = true) →
        pySplitWs s = [a, b] → holidayTypesList.contains b = true → pySplitWs a = [a] →
        validate_and_adjust_parameters week (some s) hol
          = validate_and_adjust_parameters week (some a) (some b))
    ∧ (∀ (r : String) (hol : Option String), pySplitWs r = [r] →
        repeatTypesList.contains (asciiLower r) = false →
        validate_and_adjust_parameters none (some r) hol
          = (false, errRepeatType, none, none, none))
    ∧ (∀ t : String, t ≠ "" → holidayTypesList.contains (asciiLower t) = false →
        validate_and_adjust_parameters none none (some t)
          = (false, errHolidayType, none, none, none)) := by
  have hne_of_split : ∀ (s : String) (l : List String), pySplitWs s = l → l ≠ [] → s ≠ "" := by
    intro s l hsp hl hcon
    rw [hcon, pySplitWs_empty] at hsp
    exact hl hsp.symm
  refine ⟨?_, ?_, ?_, ?_⟩
  · intro w rp hol hne hnw hrep
    have ht : truthy (some w) = true := by simp [truthy, hne]
    have hor : (repeatTypesList.contains (asciiLower w)
        || holidayTypesList.contains (asciiLower w)) = true := by
      rcases hrep with hh | hh <;> simp at hh <;> simp [hh]
    have heq : validate_and_adjust_parameters (some w) rp hol
        = validateTail none (some w) (if truthy rp then rp else hol) := by
      unfold validate_and_adjust_parameters
      simp only [ht, Option.getD_some, hnw, hor, Bool.false_eq_true, if_false, if_true]
      cases htr : truthy rp <;> simp [htr]
    refine ⟨heq, ?_⟩
    rw [heq]
    rcases validateTail_msg none (some w) (if truthy rp then rp else hol) with hh | hh | hh <;>
      rw [hh] <;> decide
  · intro s a b week hol hw hsp hb hsa
    have hs : s ≠ "" := hne_of_split s [a, b] hsp (by simp)
    have ha : a ≠ "" := hne_of_split a [a] hsa (by simp)
    have hts : truthy (some s) = true := by simp [truthy, hs]
    have hta : truthy (some a) = true := by simp [truthy, ha]
    have hb2 : b ∈ holidayTypesList := by simpa using hb
    have htail : validateTail week (some s) hol = validateTail week (some a) (some b) := by
      unfold validateTail
      simp [hts, hta, hsp, hsa, hb2]
    unfold validate_and_adjust_parameters
    cases week with
    | none => simpa [truthy] using htail
    | some w0 =>
      cases htw : truthy (some w0) with
      | false => simp only [htw, Bool.false_eq_true, if_false]; exact htail
      | true =>
        rcases hw with hw | hw
        · rw [htw] at hw; cases hw
        · simp only [Option.getD_some] at hw
          simp only [htw, Option.getD_some, hw, if_true]
          exact htail
  · intro r hol hsp hnr
    have hr : r ≠ "" := hne_of_split r [r] hsp (by simp)
    have htr : truthy (some r) = true := by simp [truthy, hr]
    show validateTail none (some r) hol = _
    unfold validateTail
    simp only [htr, Option.getD_some, hsp, if_true]
    unfold validateSlots
    have hnr2 : asciiLower r ∉ repeatTypesList := by simpa using hnr
    simp [htr, hnr2]
  · intro t ht hnt
    have htt : truthy (some t) = true := by simp [truthy, ht]
    show validateTail none none (some t) = _
    unfold validateTail validateSlots
    have hnt2 : asciiLower t ∉ holidayTypesList := by simpa using hnt
    simp [truthy, htt, hnt2, ht]

/-- Witness for C6 at concrete inputs: the misplaced tokens
`week="daily"`, `repeat="workday"` are repaired into
`(repeat=daily, holiday=workday)`; `repeat="daily workday"` splits the same
way; `repeat="bogus"` and `holiday="bogus"` are rejected with the errors
naming the accepted values. -/
theorem validate_and_adjust_parameters_spec_witness :
    (validate_and_adjust_parameters (some "daily") (some "workday") none
        = validateTail none (some "daily") (some "workday")
      ∧ (validate_and_adjust_parameters (some "daily") (some "workday") none).2.1 ≠ errWeekFormat)
    ∧ validate_and_adjust_parameters none (some "daily workday") none
        = validate_and_adjust_parameters none (some "daily") (some "workday")
    ∧ validate_and_adjust_parameters none (some "bogus") none
        = (false, errRepeatType, none, none, none)
    ∧ validate_and_adjust_parameters none none (some "bogus")
        = (false, errHolidayType, none, none, none)
    ∧ validate_and_adjust_parameters (some "daily") (some "workday") none
        = (true, "", none, some "daily", some "workday") := by
  refine ⟨?_, ?_, ?_, ?_, ?_⟩
  · have happ := validate_and_adjust_parameters_spec.1 "daily" (some "workday") none
      (by decide) (by decide) (Or.inl (by decide))
    exact ⟨by rw [happ.1]; decide, happ.2⟩
  · exact validate_and_adjust_parameters_spec.2.1 "daily workday" "daily" "workday" none none
      (Or.inl (by decide)) (by decide) (by decide) (by decide)
  · exact validate_and_adjust_parameters_spec.2.2.1 "bogus" none (by decide) (by decide)
  · exact validate_and_adjust_parameters_spec.2.2.2 "bogus" (by decide) (by decide)
  · decide

/-! ## C2: state mutation on a capacity-rejected creation -/

theorem ensure_key_exists_cases (data : ReminderData) (origin : String) :
    ((ensure_key_exists data origin).2 = data
      ∧ containsKey data (ensure_key_exists data origin).1 = true)
    ∨ ((ensure_key_exists data origin).2 = data ++ [((ensure_key_exists data origin).1, [])]
      ∧ containsKey data (ensure_key_exists data origin).1 = false) := by
  unfold ensure_key_exists
  cases hck : containsKey data
      (match find_compatible_reminder_key data origin with
        | some k => k
        | none => origin) with
  | true => left; simp [hck]
  | false => right; simp [hck]

/-- C2 counterexample: a creation request rejected by the global count
limit does mutate the repository first — `ensure_key_exists` runs before
`check_reminder_limit`, so a fresh origin leaves a new empty partition key
behind even though the creation is refused. -/
theorem process_add_item_rejected_mutates :
    (process_add_item
        [("aiocqhttp:FriendMessage:1",
          [{ text := "a", datetime := some ⟨⟨2026, 10, 13⟩, 8, 0⟩, repeatKind := some "none",
             jobId := some "reminder_1", isTask := false }])]
        [] "aiocqhttp:FriendMessage:2"
        { text := "b", datetime := some ⟨⟨2026, 10, 13⟩, 9, 0⟩, repeatKind := some "none",
          jobId := none, isTask := false }
        1 false "reminder_2").1 = AddOutcome.capacityError (globalLimitMsg 1)
    ∧ (process_add_item
        [("aiocqhttp:FriendMessage:1",
          [{ text := "a", datetime := some ⟨⟨2026, 10, 13⟩, 8, 0⟩, repeatKind := some "none",
             jobId := some "reminder_1", isTask := false }])]
        [] "aiocqhttp:FriendMessage:2"
        { text := "b", datetime := some ⟨⟨2026, 10, 13⟩, 9, 0⟩, repeatKind := some "none",
          jobId := none, isTask := false }
        1 false "reminder_2").2.1
      = [("aiocqhttp:FriendMessage:1",
          [{ text := "a", datetime := some ⟨⟨2026, 10, 13⟩, 8, 0⟩, repeatKind := some "none",
             jobId := some "reminder_1", isTask := false }]),
         ("aiocqhttp:FriendMessage:2", [])]
    ∧ ([("aiocqhttp:FriendMessage:1",
          [{ text := "a", datetime := some ⟨⟨2026, 10, 13⟩, 8, 0⟩, repeatKind := some "none",
             jobId := some "reminder_1", isTask := false }]),
        ("aiocqhttp:FriendMessage:2", [])] : ReminderData)
      ≠ [("aiocqhttp:FriendMessage:1",
          [{ text := "a", datetime := some ⟨⟨2026, 10, 13⟩, 8, 0⟩, repeatKind := some "none",
             jobId := some "reminder_1", isTask := false }])] := by
  refine ⟨by decide, by decide, by decide⟩

/-- C2 (amended): on a capacity-rejected creation no item is appended, no
existing partition is touched and no job is scheduled; the only possible
mutation is the one empty partition key `ensure_key_exists` may have
created for a previously unknown conversation before the limit check ran. -/
theorem process_add_item_capacity_frame (data : ReminderData) (jobs : List Job)
    (origin : String) (item : Reminder) (maxPerUser : Int) (uniqueSession : Bool)
    (freshJobId : String) (msg : String)
    (hrej : (process_add_item data jobs origin item maxPerUser uniqueSession freshJobId).1
      = AddOutcome.capacityError msg) :
    (process_add_item data jobs origin item maxPerUser uniqueSession freshJobId).2.2 = jobs
    ∧ ((process_add_item data jobs origin item maxPerUser uniqueSession freshJobId).2.1 = data
      ∨ ∃ k, (process_add_item data jobs origin item maxPerUser uniqueSession freshJobId).2.1
            = data ++ [(k, [])]
          ∧ containsKey data k = false) := by
  unfold process_add_item at hrej ⊢
  dsimp only at hrej ⊢
  cases hchk : (check_reminder_limit (ensure_key_exists data origin).2
      (ensure_key_exists data origin).1 maxPerUser uniqueSession).1 with
  | true =>
    rw [hchk] at hrej
    simp at hrej
  | false =>
    simp only [if_pos rfl]
    refine ⟨rfl, ?_⟩
    rcases ensure_key_exists_cases data origin with ⟨he, _⟩ | ⟨he, hnc⟩
    · left; exact he
    · right; exact ⟨(ensure_key_exists data origin).1, he, hnc⟩

/-- Witness for C2's amended theorem at the counterexample input: the jobs
are untouched and the only change is one new empty partition. -/
theorem process_add_item_capacity_frame_witness :
    (process_add_item
        [("aiocqhttp:FriendMessage:1",
          [{ text := "a", datetime := some ⟨⟨2026, 10, 13⟩, 8, 0⟩, repeatKind := some "none",
             jobId := some "reminder_1", isTask := false }])]
        [] "aiocqhttp:FriendMessage:2"
        { text := "b", datetime := some ⟨⟨2026, 10, 13⟩, 9, 0⟩, repeatKind := some "none",
          jobId := none, isTask := false }
        1 false "reminder_2").2.2 = []
    ∧ ((process_add_item
        [("aiocqhttp:FriendMessage:1",
          [{ text := "a", datetime := some ⟨⟨2026, 10, 13⟩, 8, 0⟩, repeatKind := some "none",
             jobId := some "reminder_1", isTask := false }])]
        [] "aiocqhttp:FriendMessage:2"
        { text := "b", datetime := some ⟨⟨2026, 10, 13⟩, 9, 0⟩, repeatKind := some "none",
          jobId := none, isTask := false }
        1 false "reminder_2").2.1
        = [("aiocqhttp:FriendMessage:1",
            [{ text := "a", datetime := some ⟨⟨2026, 10, 13⟩, 8, 0⟩, repeatKind := some "none",
               jobId := some "reminder_1", isTask := false }])]
      ∨ ∃ k, (process_add_item
          [("aiocqhttp:FriendMessage:1",
            [{ text := "a", datetime := some ⟨⟨2026, 10, 13⟩, 8, 0⟩, repeatKind := some "none",
               jobId := some "reminder_1", isTask := false }])]
          [] "aiocqhttp:FriendMessage:2"
          { text := "b", datetime := some ⟨⟨2026, 10, 13⟩, 9, 0⟩, repeatKind := some "none",
            jobId := none, isTask := false }
          1 false "reminder_2").2.1
            = [("aiocqhttp:FriendMessage:1",
                [{ text := "a", datetime := some ⟨⟨2026, 10, 13⟩, 8, 0⟩,
                   repeatKind := some "none", jobId := some "reminder_1",
                   isTask := false }])] ++ [(k, [])]
          ∧ containsKey
              [("aiocqhttp:FriendMessage:1",
                [{ text := "a", datetime := some ⟨⟨2026, 10, 13⟩, 8, 0⟩,
                   repeatKind := some "none", jobId := some "reminder_1",
                   isTask := false }])] k = false) := by
  exact process_add_item_capacity_frame
    [("aiocqhttp:FriendMessage:1",
      [{ text := "a", datetime := some ⟨⟨2026, 10, 13⟩, 8, 0⟩, repeatKind := some "none",
         jobId := some "reminder_1", isTask := false }])]
    [] "aiocqhttp:FriendMessage:2"
    { text := "b", datetime := some ⟨⟨2026, 10, 13⟩, 9, 0⟩, repeatKind := some "none",
      jobId := none, isTask := false }
    1 false "reminder_2" (globalLimitMsg 1) (by decide)

/-! ## C5: two-tier job removal on deletion -/

theorem containsKey_of_find_compatible (data : ReminderData) (origin k : String)
    (h : find_compatible_reminder_key data origin = some k) : containsKey data k = true := by
  unfold find_compatible_reminder_key at h
  by_cases hc : containsKey data origin
  · rw [if_pos hc] at h
    cases h
    exact hc
  · rw [if_neg hc] at h
    have hmem := List.find?_some h
    have hk : k ∈ keysOf data := List.mem_of_find?_eq_some h
    unfold keysOf at hk
    rw [List.mem_map] at hk
    obtain ⟨p, hp, hpk⟩ := hk
    unfold containsKey
    rw [List.any_eq_true]
    exact ⟨p, hp, by simp [hpk]⟩

theorem lookupList_setKey (data : ReminderData) (k : String) (v : List Reminder)
    (h : containsKey data k = true) : lookupList (setKey data k v) k = v := by
  induction data with
  | nil => simp [containsKey] at h
  | cons p rest ih =>
    by_cases hpk : p.1 = k
    · unfold setKey
      cases p with
      | mk k0 v0 =>
        simp only at hpk
        rw [if_pos hpk]
        unfold lookupList
        simp [hpk]
    · unfold setKey
      cases p with
      | mk k0 v0 =>
        simp only at hpk
        rw [if_neg hpk]
        have hrest : containsKey rest k = true := by
          unfold containsKey at h ⊢
          simp only [List.any_cons, Bool.or_eq_true] at h
          rcases h with h | h
          · exact absurd (by simpa using h) hpk
          · exact h
        unfold lookupList
        have hne : (k0 == k) = false := by simpa using hpk
        simp only [List.find?_cons, hne]
        exact ih hrest

/-- Whether the stored job id of `item` fails to identify any live job:
no id saved, an empty id, or an id unknown to the store. -/
def noStoredIdMatch (jobs : List Job) (item : Reminder) : Prop :=
  match item.jobId with
  | none => True
  | some jid => jid = "" ∨ ∀ j ∈ jobs, j.id ≠ jid

theorem removeJobTwoTier_by_id (jobs : List Job) (key : String) (item : Reminder)
    (jid : String) (hjid : item.jobId = some jid) (hne : jid ≠ "")
    (hany : jobs.any (fun j => j.id == jid) = true) :
    removeJobTwoTier jobs key item = (true, jobs.eraseP (fun j => j.id == jid)) := by
  unfold removeJobTwoTier
  rw [hjid]
  simp only
  rw [if_pos (by simpa using hne)]
  unfold removeJobById
  rw [if_pos hany]

theorem removeJobTwoTier_fallback (jobs : List Job) (key : String) (item : Reminder)
    (hno : noStoredIdMatch jobs item) :
    removeJobTwoTier jobs key item
      = (match jobs.find? (contentMatch key item) with
         | some _ => (true, jobs.eraseP (contentMatch key item))
         | none => (false, jobs)) := by
  unfold removeJobTwoTier
  unfold noStoredIdMatch at hno
  cases hj : item.jobId with
  | none => simp
  | some jid =>
    rw [hj] at hno
    simp only
    rcases hno with hno | hno
    · rw [if_neg (by simpa using hno)]
    · have hrm : removeJobById jobs jid = none := by
        unfold removeJobById
        rw [if_neg ?_]
        rw [Bool.not_eq_true, List.any_eq_false]
        intro j hjm
        simpa using hno j hjm
      by_cases he : jid = ""
      · rw [if_neg (by simpa using he)]
      · rw [if_pos (by simpa using he), hrm]

theorem removeJobTwoTier_not_found (jobs : List Job) (key : String) (item : Reminder)
    (h : (removeJobTwoTier jobs key item).1 = false) :
    (removeJobTwoTier jobs key item).2 = jobs := by
  by_cases hno : noStoredIdMatch jobs item
  · rw [removeJobTwoTier_fallback jobs key item hno] at h ⊢
    rcases hf : jobs.find? (contentMatch key item) with _ | j
    all_goals simp_all
  · unfold noStoredIdMatch at hno
    rcases hj : item.jobId with _ | jid
    · rw [hj] at hno
      exact absurd trivial hno
    · rw [hj] at hno
      have hne : jid ≠ "" := fun he => hno (Or.inl he)
      have hex : ∃ j ∈ jobs, j.id = jid := by
        by_contra hc
        push_neg at hc
        exact hno (Or.inr hc)
      obtain ⟨j, hjm, hid⟩ := hex
      have hany : jobs.any (fun j2 => j2.id == jid) = true := by
        rw [List.any_eq_true]
        exact ⟨j, hjm, by simpa using hid⟩
      rw [removeJobTwoTier_by_id jobs key item jid hj hne hany] at h
      simp at h

/-- C5: deleting a stored item first removes its scheduled job by the
stored `job_id`; when that id identifies no live job, the first job whose
id carries the `reminder_` prefix and that matches the owning partition key
and the item's exact `text` and `datetime` is removed instead; and when
neither method finds a job, the deletion of the item from the repository
still succeeds with the job store untouched — the miss is only logged,
never an error. -/
theorem remove_reminder_two_tier_spec :
    (∀ (jobs : List Job) (key : String) (item : Reminder) (jid : String),
      item.jobId = some jid → jid ≠ "" → jobs.any (fun j => j.id == jid) = true →
      removeJobTwoTier jobs key item = (true, jobs.eraseP (fun j => j.id == jid)))
    ∧ (∀ (jobs : List Job) (key : String) (item : Reminder) (j : Job),
        noStoredIdMatch jobs item → jobs.find? (contentMatch key item) = some j →
        removeJobTwoTier jobs key item = (true, jobs.eraseP (contentMatch key item)))
    ∧ (∀ (jobs : List Job) (key : String) (item : Reminder),
        noStoredIdMatch jobs item → jobs.find? (contentMatch key item) = none →
        removeJobTwoTier jobs key item = (false, jobs))
    ∧ (∀ (data : ReminderData) (jobs : List Job) (origin : String) (index : Nat),
        1 ≤ index → index ≤ (compat_get_reminders data origin).length →
        ∃ item key d2 jobs2 found,
          remove_reminder_command data jobs origin index
              = Except.ok (item, key, d2, jobs2, found)
            ∧ (compat_get_reminders data origin).get? (index - 1) = some item
            ∧ lookupList d2 key = (lookupList data key).eraseIdx (index - 1)
            ∧ (found = false → jobs2 = jobs)) := by
  refine ⟨?_, ?_, ?_, ?_⟩
  · intro jobs key item jid hjid hne hany
    exact removeJobTwoTier_by_id jobs key item jid hjid hne hany
  · intro jobs key item j hno hfind
    rw [removeJobTwoTier_fallback jobs key item hno, hfind]
  · intro jobs key item hno hfind
    rw [removeJobTwoTier_fallback jobs key item hno, hfind]
  · intro data jobs origin index h1 h2
    unfold remove_reminder_command
    have hne : compat_get_reminders data origin ≠ [] := by
      intro hnil
      rw [hnil] at h2
      simp at h2
      omega
    rw [if_neg hne]
    have hidx : ¬(index < 1 ∨ (compat_get_reminders data origin).length < index) := by
      omega
    rw [if_neg hidx]
    rcases hfc : find_compatible_reminder_key data origin with _ | k
    · exfalso
      apply hne
      unfold compat_get_reminders
      rw [hfc]
    · have hlk : compat_get_reminders data origin = lookupList data k := by
        unfold compat_get_reminders
        rw [hfc]
      have hlen : index - 1 < (lookupList data k).length := by
        rw [hlk] at h2
        omega
      unfold compat_remove_reminder
      rw [hfc]
      simp only [hlen, dif_pos]
      refine ⟨(lookupList data k).get ⟨index - 1, hlen⟩, k,
        setKey data k ((lookupList data k).eraseIdx (index - 1)),
        (removeJobTwoTier jobs k ((lookupList data k).get ⟨index - 1, hlen⟩)).2,
        (removeJobTwoTier jobs k ((lookupList data k).get ⟨index - 1, hlen⟩)).1,
        rfl, ?_, ?_, ?_⟩
      · rw [hlk]
        exact List.get?_eq_get hlen
      · exact lookupList_setKey data k _ (containsKey_of_find_compatible data origin k hfc)
      · intro hfound
        exact removeJobTwoTier_not_found jobs k _ hfound

/-- Witness for C5 at concrete inputs: removal by stored id, removal by
content match when the stored id is unknown, a silent miss that leaves the
store untouched, and a full command-level deletion that succeeds with no
matching job. -/
theorem remove_reminder_two_tier_spec_witness :
    removeJobTwoTier
        [{ id := "reminder_7", sessionId := "k1", jobText := "t",
           jobDatetime := some ⟨⟨2026, 10, 13⟩, 8, 0⟩ }]
        "k1"
        { text := "t", datetime := some ⟨⟨2026, 10, 13⟩, 8, 0⟩, repeatKind := some "none",
          jobId := some "reminder_7", isTask := false }
      = (true, [])
    ∧ removeJobTwoTier
        [{ id := "reminder_7", sessionId := "k1", jobText := "t",
           jobDatetime := some ⟨⟨2026, 10, 13⟩, 8, 0⟩ }]
        "k1"
        { text := "t", datetime := some ⟨⟨2026, 10, 13⟩, 8, 0⟩, repeatKind := some "none",
          jobId := some "reminder_gone", isTask := false }
      = (true, [])
    ∧ removeJobTwoTier []
        "k1"
        { text := "t", datetime := some ⟨⟨2026, 10, 13⟩, 8, 0⟩, repeatKind := some "none",
          jobId := some "reminder_gone", isTask := false }
      = (false, [])
    ∧ (∃ item key d2 jobs2 found,
        remove_reminder_command
            [("k1", [{ text := "t", datetime := some ⟨⟨2026, 10, 13⟩, 8, 0⟩,
                       repeatKind := some "none", jobId := some "reminder_gone",
                       isTask := false }])]
            [] "k1" 1
            = Except.ok (item, key, d2, jobs2, found)
          ∧ (compat_get_reminders
              [("k1", [{ text := "t", datetime := some ⟨⟨2026, 10, 13⟩, 8, 0⟩,
                         repeatKind := some "none", jobId := some "reminder_gone",
                         isTask := false }])] "k1").get? 0 = some item
          ∧ lookupList d2 key
            = (lookupList
                [("k1", [{ text := "t", datetime := some ⟨⟨2026, 10, 13⟩, 8, 0⟩,
                           repeatKind := some "none", jobId := some "reminder_gone",
                           isTask := false }])] key).eraseIdx 0
          ∧ (found = false → jobs2 = [])) := by
  refine ⟨?_, ?_, ?_, ?_⟩
  · exact remove_reminder_two_tier_spec.1
      [{ id := "reminder_7", sessionId := "k1", jobText := "t",
         jobDatetime := some ⟨⟨2026, 10, 13⟩, 8, 0⟩ }]
      "k1"
      { text := "t", datetime := some ⟨⟨2026, 10, 13⟩, 8, 0⟩, repeatKind := some "none",
        jobId := some "reminder_7", isTask := false }
      "reminder_7" rfl (by decide) (by decide)
  · exact remove_reminder_two_tier_spec.2.1
      [{ id := "reminder_7", sessionId := "k1", jobText := "t",
         jobDatetime := some ⟨⟨2026, 10, 13⟩, 8, 0⟩ }]
      "k1"
      { text := "t", datetime := some ⟨⟨2026, 10, 13⟩, 8, 0⟩, repeatKind := some "none",
        jobId := some "reminder_gone", isTask := false }
      { id := "reminder_7", sessionId := "k1", jobText := "t",
        jobDatetime := some ⟨⟨2026, 10, 13⟩, 8, 0⟩ }
      (Or.inr (by decide)) (by decide)
  · exact remove_reminder_two_tier_spec.2.2.1 [] "k1"
      { text := "t", datetime := some ⟨⟨2026, 10, 13⟩, 8, 0⟩, repeatKind := some "none",
        jobId := some "reminder_gone", isTask := false }
      (Or.inr (by decide)) (by decide)
  · have happ := remove_reminder_two_tier_spec.2.2.2
      [("k1", [{ text := "t", datetime := some ⟨⟨2026, 10, 13⟩, 8, 0⟩,
                 repeatKind := some "none", jobId := some "reminder_gone",
                 isTask := false }])]
      [] "k1" 1 (by decide) (by decide)
    exact happ

/-! ## C1: origin equivalence and `ensure_key_exists` -/

/-- A raw origin of the shape `platform:kind:id`, with its three components
as split by `is_compatible_origin`. -/
def wellFormedOrigin (o p k s : String) : Prop :=
  o ≠ "" ∧ strHasSub o ":" = true ∧ splitColonMax2 o = [p, k, s]

instance (o p k s : String) : Decidable (wellFormedOrigin o p k s) := by
  unfold wellFormedOrigin
  infer_instance

theorem splitColonMax2_head (o p : String) (rest : List String)
    (h : splitColonMax2 o = p :: rest) :
    (∃ tl, splitOnChar ':' o.data = p.data :: tl) ∧ (∀ c ∈ p.data, c ≠ ':') := by
  rcases hraw : splitOnChar ':' o.data with _ | ⟨l1, tl⟩
  · exact absurd hraw (splitOnChar_ne_nil ':' o.data)
  · have hp : String.mk l1 = p := by
      unfold splitColonMax2 at h
      rw [hraw] at h
      simp only [List.map_cons] at h
      rcases hm : List.map String.mk tl with _ | ⟨q2, _ | ⟨q3, qr⟩⟩ <;>
          rw [hm] at h <;> (injection h with h1 h2; try exact h1)
    have hdata : p.data = l1 := by rw [← hp]
    refine ⟨⟨tl, by rw [hdata]⟩, ?_⟩
    intro c hc
    refine splitOnChar_not_mem ':' o.data p.data ?_ c hc
    rw [hraw, hdata]
    exact List.mem_cons_self _ _

theorem firstColonPart_eq (o p : String) (rest : List String)
    (h : splitColonMax2 o = p :: rest) : firstColonPart o = p := by
  obtain ⟨⟨tl, htl⟩, _⟩ := splitColonMax2_head o p rest h
  unfold firstColonPart
  rw [htl]
  rfl

theorem platformTypeOfId_of_v3 (p : String) (h : v3PlatformNames.contains p = true) :
    platformTypeOfId p = p := by
  unfold platformTypeOfId
  rw [if_pos h]

theorem get_platform_type_from_origin_eq (o p k s : String)
    (hw : wellFormedOrigin o p k s) :
    get_platform_type_from_origin o = platformTypeOfId p := by
  obtain ⟨hne, hsub, hsp⟩ := hw
  have hfp : firstColonPart o = p := firstColonPart_eq o p [k, s] hsp
  unfold get_platform_type_from_origin platformTypeOfId
  rw [if_neg (by simp [hne, hsub]), hfp]

theorem get_platform_type_from_system_eq (p : String) (hp : ∀ c ∈ p.data, c ≠ ':') :
    get_platform_type_from_system p = platformTypeOfId p := by
  unfold get_platform_type_from_system
  have hdata : (p ++ ":dummy:dummy").data = p.data ++ (':' :: "dummy:dummy".data) := by
    rw [String.data_append]
  have hne : (p ++ ":dummy:dummy") ≠ "" := by
    intro hc
    have : (p ++ ":dummy:dummy").data = [] := by rw [hc]
    rw [hdata] at this
    simp at this
  have hsub : strHasSub (p ++ ":dummy:dummy") ":" = true := by
    unfold strHasSub
    rw [hdata]
    apply hasSubList_singleton_of_mem
    exact List.mem_append_right _ (List.mem_cons_self _ _)
  have hfp : firstColonPart (p ++ ":dummy:dummy") = p := by
    unfold firstColonPart
    rw [hdata, splitOnChar_append ':' p.data _ hp]
    rfl
  unfold get_platform_type_from_origin platformTypeOfId
  rw [if_neg (by simp [hne, hsub]), hfp]

theorem resolvedPlatformType_eq (o p k s : String) (hw : wellFormedOrigin o p k s)
    (hp : ∀ c ∈ p.data, c ≠ ':') :
    resolvedPlatformType p o = platformTypeOfId p := by
  unfold resolvedPlatformType
  rw [get_platform_type_from_system_eq p hp]
  by_cases he : platformTypeOfId p = p
  · rw [if_pos he]
    exact get_platform_type_from_origin_eq o p k s hw
  · rw [if_neg he]

/-- Two well-formed origins sharing their conversation kind and id whose
platform components have the same resolved type are compatible. -/
theorem is_compatible_origin_of_equiv (o1 o2 p1 p2 k s : String)
    (h1 : wellFormedOrigin o1 p1 k s) (h2 : wellFormedOrigin o2 p2 k s)
    (ht : platformTypeOfId p1 = platformTypeOfId p2) :
    is_compatible_origin o1 o2 = true := by
  by_cases heq : o1 = o2
  · unfold is_compatible_origin
    rw [if_pos heq]
  · obtain ⟨hne1, hsub1, hsp1⟩ := h1
    obtain ⟨hne2, hsub2, hsp2⟩ := h2
    have hp1 : ∀ c ∈ p1.data, c ≠ ':' := (splitColonMax2_head o1 p1 [k, s] hsp1).2
    have hp2 : ∀ c ∈ p2.data, c ≠ ':' := (splitColonMax2_head o2 p2 [k, s] hsp2).2
    unfold is_compatible_origin
    rw [if_neg heq]
    simp only [if_pos (And.intro hne1 hsub1), if_pos (And.intro hne2 hsub2), hsp1, hsp2]
    rw [if_neg (by simp)]
    by_cases hpp : p1 = p2
    · rw [if_pos hpp]
    · rw [if_neg hpp]
      have ht1 : resolvedPlatformType p1 o1 = platformTypeOfId p1 :=
        resolvedPlatformType_eq o1 p1 k s ⟨hne1, hsub1, hsp1⟩ hp1
      have ht2 : resolvedPlatformType p2 o2 = platformTypeOfId p2 :=
        resolvedPlatformType_eq o2 p2 k s ⟨hne2, hsub2, hsp2⟩ hp2
      rw [if_neg (by rw [ht1, ht2, ht]; simp)]
      by_cases hv3 : v3PlatformNames.contains p1 && v3PlatformNames.contains p2
      · exfalso
        rw [Bool.and_eq_true] at hv3
        have e1 := platformTypeOfId_of_v3 p1 hv3.1
        have e2 := platformTypeOfId_of_v3 p2 hv3.2
        rw [e1, e2] at ht
        exact hpp ht
      · rw [if_neg hv3]

/-- Inversion of a successful compatibility test: both origins are
well-formed three-part strings with identical kind and id components, and
their platform components are either identical or resolve to the same
platform type. -/
theorem is_compatible_origin_inv (key o : String) (hne : key ≠ o)
    (h : is_compatible_origin key o = true) :
    ∃ pk kk sk po ko so,
      wellFormedOrigin key pk kk sk ∧ wellFormedOrigin o po ko so
      ∧ kk = ko ∧ sk = so
      ∧ (pk = po ∨ platformTypeOfId pk = platformTypeOfId po) := by
  unfold is_compatible_origin at h
  rw [if_neg hne] at h
  by_cases h1 : key ≠ "" ∧ strHasSub key ":" = true
  case neg =>
    rw [if_neg h1] at h
    simp at h
  case pos =>
    rw [if_pos h1] at h
    by_cases h2 : o ≠ "" ∧ strHasSub o ":" = true
    case neg =>
      rw [if_neg h2] at h
      rcases hsk : splitColonMax2 key with _ | ⟨pk, _ | ⟨kk, _ | ⟨sk, _ | ⟨x, r⟩⟩⟩⟩ <;>
        rw [hsk] at h <;> simp at h
    case pos =>
      rw [if_pos h2] at h
      rcases hsk : splitColonMax2 key with _ | ⟨pk, _ | ⟨kk, _ | ⟨sk, _ | ⟨x, r⟩⟩⟩⟩ <;>
          rw [hsk] at h <;>
        rcases hso : splitColonMax2 o with _ | ⟨po, _ | ⟨ko, _ | ⟨so, _ | ⟨y, r2⟩⟩⟩⟩ <;>
          rw [hso] at h <;>
        simp only [] at h
      case cons.cons.cons.nil.cons.cons.cons.nil =>
        by_cases hks : kk ≠ ko ∨ sk ≠ so
        case pos =>
          rw [if_pos hks] at h
          cases h
        case neg =>
          rw [if_neg hks] at h
          push_neg at hks
          obtain ⟨hkk, hss⟩ := hks
          refine ⟨pk, kk, sk, po, ko, so, ⟨h1.1, h1.2, hsk⟩, ⟨h2.1, h2.2, hso⟩, hkk, hss, ?_⟩
          by_cases hpp : pk = po
          · exact Or.inl hpp
          · right
            rw [if_neg hpp] at h
            by_cases htt : resolvedPlatformType pk key ≠ resolvedPlatformType po o
            · rw [if_pos htt] at h
              cases h
            · push_neg at htt
              have hpk : ∀ c ∈ pk.data, c ≠ ':' := (splitColonMax2_head key pk [kk, sk] hsk).2
              have hpo : ∀ c ∈ po.data, c ≠ ':' := (splitColonMax2_head o po [ko, so] hso).2
              have e1 := resolvedPlatformType_eq key pk kk sk ⟨h1.1, h1.2, hsk⟩ hpk
              have e2 := resolvedPlatformType_eq o po ko so ⟨h2.1, h2.2, hso⟩ hpo
              rw [← e1, ← e2]
              exact htt
      all_goals cases h

/-- The compatibility test transfers between two equivalent origins: a key
compatible with one is compatible with the other. -/
theorem is_compatible_origin_transfer (o1 o2 p1 p2 k s key : String)
    (h1 : wellFormedOrigin o1 p1 k s) (h2 : wellFormedOrigin o2 p2 k s)
    (ht : platformTypeOfId p1 = platformTypeOfId p2)
    (h : is_compatible_origin key o2 = true) : is_compatible_origin key o1 = true := by
  by_cases hko : key = o2
  · rw [hko]
    exact is_compatible_origin_of_equiv o2 o1 p2 p1 k s h2 h1 ht.symm
  · obtain ⟨pk, kk, sk, po, ko, so, hwk, hwo, hkk, hss, hp⟩ :=
      is_compatible_origin_inv key o2 hko h
    have hos : [po, ko, so] = [p2, k, s] := by rw [← hwo.2.2, ← h2.2.2]
    obtain ⟨hpo2, hko2, hso2⟩ : po = p2 ∧ ko = k ∧ so = s := by
      injection hos with e1 e23
      injection e23 with e2 e3
      injection e3 with e3 _
      exact ⟨e1, e2, e3⟩
    have htk : platformTypeOfId pk = platformTypeOfId p1 := by
      rcases hp with hp | hp
    
      · rw [hp, hpo2, ← ht]
      · rw [hp, hpo2, ← ht]
    have hwk2 : wellFormedOrigin key pk k s := by
      refine ⟨hwk.1, hwk.2.1, ?_⟩
      rw [hwk.2.2, hkk, hss, hko2, hso2]
    exact is_compatible_origin_of_equiv key o1 pk p1 k s hwk2 h1 htk

theorem find?_append_of_none {α : Type} (p : α → Bool) (l1 l2 : List α)
    (h : l1.find? p = none) : (l1 ++ l2).find? p = l2.find? p := by
  induction l1 with
  | nil => rfl
  | cons a t ih =>
    cases hp : p a with
    | true =>
      rw [List.find?_cons_of_pos _ hp] at h
      cases h
    | false =>
      rw [List.find?_cons_of_neg _ (by simp [hp])] at h
      rw [List.cons_append, List.find?_cons_of_neg _ (by simp [hp])]
      exact ih h

/-- C1: two well-formed raw origins with byte-identical conversation kind
and id whose platform components resolve to the same platform type are
merged by `ensure_key_exists`: starting from a repository holding no
partition compatible with the conversation, the call with the first origin
and then the call with the second return the same partition key, the
second call allocates nothing, and the repository ends with exactly one
partition compatible with that conversation — not two. -/
theorem ensure_key_exists_merges_equivalent_origins
    (data : ReminderData) (o1 o2 p1 p2 k s : String)
    (h1 : wellFormedOrigin o1 p1 k s) (h2 : wellFormedOrigin o2 p2 k s)
    (ht : resolvedPlatformType p1 o1 = resolvedPlatformType p2 o2)
    (hfresh : find_compatible_reminder_key data o1 = none) :
    (ensure_key_exists data o1).1 = o1
    ∧ (ensure_key_exists (ensure_key_exists data o1).2 o2).1 = o1
    ∧ (ensure_key_exists (ensure_key_exists data o1).2 o2).2 = (ensure_key_exists data o1).2
    ∧ ((keysOf (ensure_key_exists (ensure_key_exists data o1).2 o2).2).countP
        (fun key => is_compatible_origin key o2)) = 1 := by
  have hp1c : ∀ c ∈ p1.data, c ≠ ':' := (splitColonMax2_head o1 p1 [k, s] h1.2.2).2
  have hp2c : ∀ c ∈ p2.data, c ≠ ':' := (splitColonMax2_head o2 p2 [k, s] h2.2.2).2
  have htF : platformTypeOfId p1 = platformTypeOfId p2 := by
    rw [← resolvedPlatformType_eq o1 p1 k s h1 hp1c,
      ← resolvedPlatformType_eq o2 p2 k s h2 hp2c]
    exact ht
  have hc1 : containsKey data o1 = false := by
    by_cases hc : containsKey data o1 = true
    · unfold find_compatible_reminder_key at hfresh
      rw [if_pos hc] at hfresh
      cases hfresh
    · simpa using hc
  have hall : ∀ key ∈ keysOf data, is_compatible_origin key o1 = false := by
    unfold find_compatible_reminder_key at hfresh
    rw [if_neg (by simp [hc1])] at hfresh
    intro key hk
    have := List.find?_eq_none.mp hfresh key hk
    simpa using this
  have hr1 : ensure_key_exists data o1 = (o1, data ++ [(o1, [])]) := by
    unfold ensure_key_exists
    rw [hfresh]
    simp only
    rw [if_neg (by simp [hc1])]
  have hc12 : is_compatible_origin o1 o2 = true :=
    is_compatible_origin_of_equiv o1 o2 p1 p2 k s h1 h2 htF
  have hall2 : ∀ key ∈ keysOf data, is_compatible_origin key o2 = false := by
    intro key hk
    cases hv : is_compatible_origin key o2 with
    | false => rfl
    | true =>
      have h1t := is_compatible_origin_transfer o1 o2 p1 p2 k s key h1 h2 htF hv
      rw [hall key hk] at h1t
      cases h1t
  have href : is_compatible_origin o2 o2 = true := by
    unfold is_compatible_origin
    rw [if_pos rfl]
  have hno2 : containsKey data o2 = false := by
    cases hcc : containsKey data o2 with
    | false => rfl
    | true =>
      exfalso
      have hk : o2 ∈ keysOf data := by
        unfold containsKey at hcc
        rw [List.any_eq_true] at hcc
        obtain ⟨q, hq, hqe⟩ := hcc
        unfold keysOf
        rw [List.mem_map]
        exact ⟨q, hq, by simpa using hqe⟩
      have := hall2 o2 hk
      rw [href] at this
      cases this
  have hkeys1 : keysOf (data ++ [(o1, [])]) = keysOf data ++ [o1] := by
    unfold keysOf
    rw [List.map_append]
    rfl
  have hck1 : containsKey (data ++ [(o1, [])]) o1 = true := by
    unfold containsKey
    rw [List.any_append]
    simp
  have hfind2 : find_compatible_reminder_key (data ++ [(o1, [])]) o2 = some o1 := by
    unfold find_compatible_reminder_key
    by_cases ho12 : o2 = o1
    · rw [if_pos (by rw [ho12]; exact hck1), ho12]
    · have hnck : containsKey (data ++ [(o1, [])]) o2 = false := by
        unfold containsKey
        rw [List.any_append]
        unfold containsKey at hno2
        rw [hno2]
        simpa using fun he => ho12 he.symm
      rw [if_neg (by simp [hnck]), hkeys1]
      have hfn : (keysOf data).find? (fun key => is_compatible_origin key o2) = none := by
        rw [List.find?_eq_none]
        intro key hk
        simp [hall2 key hk]
      rw [find?_append_of_none _ _ _ hfn]
      unfold List.find?
      rw [hc12]
  have hr2 : ensure_key_exists (data ++ [(o1, [])]) o2 = (o1, data ++ [(o1, [])]) := by
    unfold ensure_key_exists
    rw [hfind2]
    simp only
    rw [if_pos hck1]
  refine ⟨by rw [hr1], ?_, ?_, ?_⟩
  · simp only [hr1, hr2]
  · simp only [hr1, hr2]
  · simp only [hr1, hr2, hkeys1, List.countP_append]
    have hz : (keysOf data).countP (fun key => is_compatible_origin key o2) = 0 := by
      rw [List.countP_eq_zero]
      intro key hk
      simp [hall2 key hk]
    rw [hz]
    simp [List.countP_cons, hc12]

/-- Witness for C1: from the empty repository, a legacy-format origin and
an instance-suffixed origin of the same aiocqhttp conversation resolve to
the single partition key created by the first call. -/
theorem ensure_key_exists_merges_equivalent_origins_witness :
    (ensure_key_exists [] "aiocqhttp:GroupMessage:123").1 = "aiocqhttp:GroupMessage:123"
    ∧ (ensure_key_exists (ensure_key_exists [] "aiocqhttp:GroupMessage:123").2
        "aiocqhttp-second:GroupMessage:123").1 = "aiocqhttp:GroupMessage:123"
    ∧ (ensure_key_exists (ensure_key_exists [] "aiocqhttp:GroupMessage:123").2
        "aiocqhttp-second:GroupMessage:123").2
      = (ensure_key_exists [] "aiocqhttp:GroupMessage:123").2
    ∧ ((keysOf (ensure_key_exists (ensure_key_exists [] "aiocqhttp:GroupMessage:123").2
        "aiocqhttp-second:GroupMessage:123").2).countP
          (fun key => is_compatible_origin key "aiocqhttp-second:GroupMessage:123")) = 1 :=
  ensure_key_exists_merges_equivalent_origins []
    "aiocqhttp:GroupMessage:123" "aiocqhttp-second:GroupMessage:123"
    "aiocqhttp" "aiocqhttp-second" "GroupMessage" "123"
    (by decide) (by decide) (by decide) (by decide)
